import Mathlib

/-!
# Fwog deferred-rendering example

A shallow embedding of `example/deferred.cpp` and `include/fwog/Pipeline.h`:
the pipeline handles, the vertex layout and mesh tables, the per-object
uniforms, and the sequence of GFX calls issued by one iteration of the frame
loop of `RenderScene`, run against a recorder state that tracks the render
scope, the pipeline bound in the scope and the contents of the two uniform
buffers written with `SubData`.
-/

namespace Fwog

/-! ## Pipeline handles (`Pipeline.h`) -/

/-- Handle `struct GraphicsPipeline { uint64_t id; }`. -/
structure GraphicsPipeline where
  id : Nat
  deriving DecidableEq, Repr

/-- Handle `struct ComputePipeline { uint64_t id; }`. -/
structure ComputePipeline where
  id : Nat
  deriving DecidableEq, Repr

/-! ## Defaulted comparisons of the handles -/

/-- A defaulted `operator<=>`: the members are compared in declaration order
(each pair holds the left and the right operand's member) and the first
result that is not `equal` is returned. -/
def defaultedCompare : List (Nat × Nat) → Ordering
  | [] => .eq
  | (a, b) :: ms =>
    match compare a b with
    | .eq => defaultedCompare ms
    | o => o

/-- The `operator==` that a defaulted `operator<=>` declares: memberwise
equality in declaration order. -/
def defaultedEq : List (Nat × Nat) → Bool
  | [] => true
  | (a, b) :: ms => a == b && defaultedEq ms

/-- Expression `a <=> b` on graphics pipeline handles; `id` is the only member. -/
def GraphicsPipeline.cmp (a b : GraphicsPipeline) : Ordering := defaultedCompare [(a.id, b.id)]
/-- Expression `a == b` on graphics pipeline handles. -/
def GraphicsPipeline.eq (a b : GraphicsPipeline) : Bool := defaultedEq [(a.id, b.id)]
/-- Expression `a < b`, rewritten by the language as `(a <=> b) < 0`. -/
def GraphicsPipeline.lt (a b : GraphicsPipeline) : Bool := a.cmp b == .lt
/-- Expression `a <= b`, rewritten by the language as `(a <=> b) <= 0`. -/
def GraphicsPipeline.le (a b : GraphicsPipeline) : Bool := a.cmp b != .gt

/-- Expression `a <=> b` on compute pipeline handles; `id` is the only member. -/
def ComputePipeline.cmp (a b : ComputePipeline) : Ordering := defaultedCompare [(a.id, b.id)]
/-- Expression `a == b` on compute pipeline handles. -/
def ComputePipeline.eq (a b : ComputePipeline) : Bool := defaultedEq [(a.id, b.id)]
/-- Expression `a < b`, rewritten by the language as `(a <=> b) < 0`. -/
def ComputePipeline.lt (a b : ComputePipeline) : Bool := a.cmp b == .lt
/-- Expression `a <= b`, rewritten by the language as `(a <=> b) <= 0`. -/
def ComputePipeline.le (a b : ComputePipeline) : Bool := a.cmp b != .gt

/-! ## Fixed-function state descriptors (`Pipeline.h`)

The enumerations are declared in `BasicTypes.h`; each lists here the
enumerators that the sources name. Floats of the descriptors are rationals. -/

/-- Enumeration `PrimitiveTopology`. -/
inductive PrimitiveTopology
  | TRIANGLE_LIST
  deriving DecidableEq, Repr

/-- Enumeration `PolygonMode`. -/
inductive PolygonMode
  | FILL
  deriving DecidableEq, Repr

/-- Enumeration `CullMode`. -/
inductive CullMode
  | NONE
  | BACK
  deriving DecidableEq, Repr

/-- Enumeration `FrontFace`. -/
inductive FrontFace
  | COUNTERCLOCKWISE
  deriving DecidableEq, Repr

/-- Enumeration `CompareOp`. -/
inductive CompareOp
  | LESS
  | ALWAYS
  deriving DecidableEq, Repr

/-- Enumeration `StencilOp`. -/
inductive StencilOp
  | KEEP
  deriving DecidableEq, Repr

/-- Enumeration `BlendFactor`. -/
inductive BlendFactor
  | ZERO
  | ONE
  deriving DecidableEq, Repr

/-- Enumeration `BlendOp`. -/
inductive BlendOp
  | ADD
  deriving DecidableEq, Repr

/-- Enumeration `LogicOp`: `COPY`, and the value-initialised enumerator that
`.logicOp{}` denotes. -/
inductive LogicOp
  | valueInitialized
  | COPY
  deriving DecidableEq, Repr

/-- Flags `ColorComponentFlags`. -/
inductive ColorComponentFlags
  | RGBA_BITS
  deriving DecidableEq, Repr

/-- Enumeration `Format`: the formats the example names. -/
inductive Format
  | R32G32B32_FLOAT
  | R32G32_FLOAT
  | R8G8B8A8_UNORM
  | R16G16B16_SNORM
  | R11G11B10_FLOAT
  | D32_UNORM
  | D16_UNORM
  deriving DecidableEq, Repr

/-- Modelled from the spec: the byte size of one element of a format, which
`BasicTypes.h` (not part of the sources) leaves to the format's name: the sum
of its component bit widths over eight, so 12 for `R32G32B32_FLOAT` and 8 for
`R32G32_FLOAT`. -/
def Format.byteSize : Format → Nat
  | .R32G32B32_FLOAT => 12
  | .R32G32_FLOAT => 8
  | .R8G8B8A8_UNORM => 4
  | .R16G16B16_SNORM => 6
  | .R11G11B10_FLOAT => 4
  | .D32_UNORM => 4
  | .D16_UNORM => 2

/-- Struct `InputAssemblyState`. -/
structure InputAssemblyState where
  topology : PrimitiveTopology := .TRIANGLE_LIST
  primitiveRestartEnable : Bool := false
  deriving DecidableEq, Repr

/-- Struct `VertexInputBindingDescription` (all members `uint32_t` but the
format). -/
structure VertexInputBindingDescription where
  location : Nat
  binding : Nat
  format : Format
  offset : Nat
  deriving DecidableEq, Repr

/-- Struct `VertexInputState`; the span is a list. -/
structure VertexInputState where
  vertexBindingDescriptions : List VertexInputBindingDescription := []
  deriving DecidableEq, Repr

/-- Struct `RasterizationState`. -/
structure RasterizationState where
  depthClampEnable : Bool := false
  polygonMode : PolygonMode := .FILL
  cullMode : CullMode := .BACK
  frontFace : FrontFace := .COUNTERCLOCKWISE
  depthBiasEnable : Bool := false
  depthBiasConstantFactor : ℚ := 0
  depthBiasSlopeFactor : ℚ := 0
  lineWidth : ℚ := 1
  pointSize : ℚ := 1
  deriving DecidableEq, Repr

/-- Struct `DepthState`. -/
structure DepthState where
  depthTestEnable : Bool := true
  depthWriteEnable : Bool := true
  depthCompareOp : CompareOp := .LESS
  deriving DecidableEq, Repr

/-- Struct `StencilOpState`. -/
structure StencilOpState where
  passOp : StencilOp := .KEEP
  failOp : StencilOp := .KEEP
  depthFailOp : StencilOp := .KEEP
  compareOp : CompareOp := .ALWAYS
  compareMask : Nat := 0
  writeMask : Nat := 0
  reference : Nat := 0
  deriving DecidableEq, Repr

/-- Struct `StencilState`. -/
structure StencilState where
  stencilTestEnable : Bool := false
  front : StencilOpState := {}
  back : StencilOpState := {}
  deriving DecidableEq, Repr

/-- Struct `ColorBlendAttachmentState`. -/
structure ColorBlendAttachmentState where
  blendEnable : Bool := false
  srcColorBlendFactor : BlendFactor := .ONE
  dstColorBlendFactor : BlendFactor := .ZERO
  colorBlendOp : BlendOp := .ADD
  srcAlphaBlendFactor : BlendFactor := .ONE
  dstAlphaBlendFactor : BlendFactor := .ZERO
  alphaBlendOp : BlendOp := .ADD
  colorWriteMask : ColorComponentFlags := .RGBA_BITS
  deriving DecidableEq, Repr

/-- Struct `ColorBlendState`; the span is a list, `blendConstants` has four
entries. -/
structure ColorBlendState where
  logicOpEnable : Bool := false
  logicOp : LogicOp := .COPY
  attachments : List ColorBlendAttachmentState := []
  blendConstants : List ℚ := [0, 0, 0, 0]
  deriving DecidableEq, Repr

/-- Struct `GraphicsPipelineInfo` of `Pipeline.h`; a shader pointer is the
address it holds, `none` for `nullptr`. -/
structure GraphicsPipelineInfo where
  vertexShader : Option Nat := none
  fragmentShader : Option Nat := none
  inputAssemblyState : InputAssemblyState := {}
  vertexInputState : VertexInputState := {}
  rasterizationState : RasterizationState := {}
  depthState : DepthState := {}
  stencilState : StencilState := {}
  colorBlendState : ColorBlendState := {}
  deriving DecidableEq, Repr

/-- Struct `ComputePipelineInfo`. -/
structure ComputePipelineInfo where
  shader : Option Nat
  deriving DecidableEq, Repr

/-! ## Pipeline compilation -/

/-- The compiler's cache: the descriptors compiled so far with their handles,
and the id the next compiled object gets. -/
structure PipelineCache where
  entries : List (GraphicsPipelineInfo × GraphicsPipeline)
  nextId : Nat
  deriving DecidableEq, Repr

/-- Modelled from the spec: `CompileGraphicsPipeline`, declared in `Pipeline.h`
and defined in Pipeline.cpp, which is not part of the sources. The compiler
"validates" the descriptor and "on failure returns an error without partial
side effects"; it "caches by content identity", descriptors being "compared by
full structural equality", in "an explicit mapping from key to compiled
object", so that "re-submitting an identical descriptor must yield an equal
handle (or reuse the cached one) rather than a new compiled object".
`valid` stands for the validation (shader linkage, supported formats). -/
def CompileGraphicsPipeline (valid : GraphicsPipelineInfo → Bool) (cache : PipelineCache)
    (info : GraphicsPipelineInfo) : Option GraphicsPipeline × PipelineCache :=
  if valid info then
    match cache.entries.lookup info with
    | some pipeline => (some pipeline, cache)
    | none =>
      (some ⟨cache.nextId⟩, ⟨(info, ⟨cache.nextId⟩) :: cache.entries, cache.nextId + 1⟩)
  else (none, cache)

/-- Cache after compiling a sequence of descriptors one after the other. -/
def compileAll (valid : GraphicsPipelineInfo → Bool) (cache : PipelineCache) :
    List GraphicsPipelineInfo → PipelineCache
  | [] => cache
  | info :: infos => compileAll valid (CompileGraphicsPipeline valid cache info).2 infos

/-! ## glm value types -/

/-- Type `glm::vec2`. -/
structure Vec2 (F : Type) where
  x : F
  y : F
  deriving DecidableEq, Repr

/-- Type `glm::vec3`. -/
structure Vec3 (F : Type) where
  x : F
  y : F
  z : F
  deriving DecidableEq, Repr

/-- Type `glm::vec4`. -/
structure Vec4 (F : Type) where
  x : F
  y : F
  z : F
  w : F
  deriving DecidableEq, Repr

/-- Type `glm::mat4`, stored column by column as glm does. -/
structure Mat4 (F : Type) where
  c0 : Vec4 F
  c1 : Vec4 F
  c2 : Vec4 F
  c3 : Vec4 F
  deriving DecidableEq, Repr

/-- The four floats of a `vec4` in memory order. -/
def Vec4.toWords {F : Type} (v : Vec4 F) : List F := [v.x, v.y, v.z, v.w]

/-- The sixteen floats of a `mat4` in memory order (column major). -/
def Mat4.toWords {F : Type} (m : Mat4 F) : List F :=
  m.c0.toWords ++ m.c1.toWords ++ m.c2.toWords ++ m.c3.toWords

/-! ## Struct layout (`sizeof`, `offsetof`) -/

/-- A data member of a standard-layout struct: size and alignment in bytes. -/
structure Member where
  size : Nat
  align : Nat
  deriving DecidableEq, Repr

/-- Round `n` up to the next multiple of `a`. -/
def alignUp (n a : Nat) : Nat := (n + a - 1) / a * a

/-- Offsets of the members laid out in declaration order from offset `off`. -/
def memberOffsets : Nat → List Member → List Nat
  | _, [] => []
  | off, m :: ms => alignUp off m.align :: memberOffsets (alignUp off m.align + m.size) ms

/-- End of the last member when the members are laid out from offset `off`. -/
def membersEnd : Nat → List Member → Nat
  | off, [] => off
  | off, m :: ms => membersEnd (alignUp off m.align + m.size) ms

/-- Alignment of a struct: the largest member alignment, at least `minAlign`
(`alignas`). -/
def structAlign (minAlign : Nat) (ms : List Member) : Nat :=
  ms.foldl (fun a m => max a m.align) minAlign

/-- Value of `sizeof` for a struct with the given members and `alignas`. -/
def sizeofStruct (minAlign : Nat) (ms : List Member) : Nat :=
  alignUp (membersEnd 0 ms) (structAlign minAlign ms)

/-- Member `float`. -/
def floatMember : Member := ⟨4, 4⟩
/-- Member `glm::vec2`: two floats. -/
def vec2Member : Member := ⟨8, 4⟩
/-- Member `glm::vec3`: three floats. -/
def vec3Member : Member := ⟨12, 4⟩
/-- Member `glm::vec4`: four floats. -/
def vec4Member : Member := ⟨16, 4⟩
/-- Member `glm::mat4`: sixteen floats. -/
def mat4Member : Member := ⟨64, 4⟩

/-- Value `sizeof(glm::mat4)`. -/
def sizeofMat4 : Nat := mat4Member.size

/-- Members of `struct Vertex { vec3 position; vec3 normal; vec2 uv; }`. -/
def vertexMembers : List Member := [vec3Member, vec3Member, vec2Member]
/-- Value `sizeof(Vertex)`. -/
def sizeofVertex : Nat := sizeofStruct 1 vertexMembers

/-- Members of `struct ObjectUniforms { mat4 model; vec4 color; }`. -/
def objectUniformsMembers : List Member := [mat4Member, vec4Member]
/-- Value `sizeof(ObjectUniforms)`. -/
def sizeofObjectUniforms : Nat := sizeofStruct 1 objectUniformsMembers

/-- Members of `struct alignas(16) ShadingUniforms`. -/
def shadingUniformsMembers : List Member :=
  [vec4Member, mat4Member, vec4Member, vec4Member, floatMember]
/-- Value `sizeof(ShadingUniforms)`; the struct is declared `alignas(16)`. -/
def sizeofShadingUniforms : Nat := sizeofStruct 16 shadingUniformsMembers

/-- Members of `struct GlobalUniforms { mat4 viewProj; mat4 invViewProj; }`. -/
def globalUniformsMembers : List Member := [mat4Member, mat4Member]
/-- Value `sizeof(GlobalUniforms)`. -/
def sizeofGlobalUniforms : Nat := sizeofStruct 1 globalUniformsMembers

/-! ## Pipeline construction in the example (`deferred.cpp`)

The example is written against the `GFX` spelling of the library, whose
pipeline descriptor names one linked program and one depth/stencil block. -/

namespace GFX

/-- Struct `GFX::DepthStencilState`, with the members the example sets. -/
structure DepthStencilState where
  depthTestEnable : Bool := true
  depthWriteEnable : Bool := true
  depthCompareOp : CompareOp := .LESS
  deriving DecidableEq, Repr

/-- Struct `GFX::GraphicsPipelineInfo`, with the members the example sets;
`shaderProgram` is a `GLuint`. -/
structure GraphicsPipelineInfo where
  shaderProgram : Nat
  inputAssemblyState : InputAssemblyState
  vertexInputState : VertexInputState
  rasterizationState : RasterizationState
  depthStencilState : DepthStencilState
  colorBlendState : ColorBlendState
  deriving DecidableEq, Repr

end GFX

/-- Value `offsetof(Vertex, m)` for the `i`-th member of `Vertex`. -/
def offsetofVertex (i : Nat) : Nat := (memberOffsets 0 vertexMembers).getD i 0

/-- Function `GetSceneInputBindingDescs`. -/
def GetSceneInputBindingDescs : List VertexInputBindingDescription :=
  let descPos : VertexInputBindingDescription :=
    { location := 0, binding := 0, format := .R32G32B32_FLOAT, offset := offsetofVertex 0 }
  let descNormal : VertexInputBindingDescription :=
    { location := 1, binding := 0, format := .R32G32B32_FLOAT, offset := offsetofVertex 1 }
  let descUV : VertexInputBindingDescription :=
    { location := 2, binding := 0, format := .R32G32_FLOAT, offset := offsetofVertex 2 }
  [descPos, descNormal, descUV]

/-- Function `GetDefaultRasterizationState`. -/
def GetDefaultRasterizationState : RasterizationState :=
  { depthClampEnable := false
    polygonMode := .FILL
    cullMode := .BACK
    frontFace := .COUNTERCLOCKWISE
    depthBiasEnable := false
    lineWidth := 1
    pointSize := 1 }

/-- The descriptor `pipelineInfo` that `CreateScenePipeline` builds for the
linked program `shader`. -/
def scenePipelineInfo (shader : Nat) : GFX.GraphicsPipelineInfo :=
  let inputAssembly : InputAssemblyState :=
    { topology := .TRIANGLE_LIST, primitiveRestartEnable := false }
  let inputDescs := GetSceneInputBindingDescs
  let vertexInput : VertexInputState := { vertexBindingDescriptions := inputDescs }
  let rasterization := GetDefaultRasterizationState
  let depthStencil : GFX.DepthStencilState :=
    { depthTestEnable := true, depthWriteEnable := true, depthCompareOp := .LESS }
  let colorBlendAttachment : ColorBlendAttachmentState :=
    { blendEnable := true
      srcColorBlendFactor := .ONE
      dstColorBlendFactor := .ZERO
      colorBlendOp := .ADD
      srcAlphaBlendFactor := .ONE
      dstAlphaBlendFactor := .ZERO
      alphaBlendOp := .ADD
      colorWriteMask := .RGBA_BITS }
  let colorBlend : ColorBlendState :=
    { logicOpEnable := false
      logicOp := .valueInitialized
      attachments := [colorBlendAttachment]
      blendConstants := [0, 0, 0, 0] }
  { shaderProgram := shader
    inputAssemblyState := inputAssembly
    vertexInputState := vertexInput
    rasterizationState := rasterization
    depthStencilState := depthStencil
    colorBlendState := colorBlend }

/-- The descriptor `pipelineInfo` that `CreateShadowPipeline` builds. -/
def shadowPipelineInfo (shader : Nat) : GFX.GraphicsPipelineInfo :=
  let inputAssembly : InputAssemblyState :=
    { topology := .TRIANGLE_LIST, primitiveRestartEnable := false }
  let inputDescs := GetSceneInputBindingDescs
  let vertexInput : VertexInputState := { vertexBindingDescriptions := inputDescs }
  let rasterization := GetDefaultRasterizationState
  let rasterization := { rasterization with depthBiasEnable := true }
  let rasterization := { rasterization with depthBiasConstantFactor := 0 }
  let rasterization := { rasterization with depthBiasSlopeFactor := 3 }
  let depthStencil : GFX.DepthStencilState :=
    { depthTestEnable := true, depthWriteEnable := true, depthCompareOp := .LESS }
  let colorBlendAttachment : ColorBlendAttachmentState :=
    { blendEnable := false
      srcColorBlendFactor := .ONE
      dstColorBlendFactor := .ZERO
      colorBlendOp := .ADD
      srcAlphaBlendFactor := .ONE
      dstAlphaBlendFactor := .ZERO
      alphaBlendOp := .ADD
      colorWriteMask := .RGBA_BITS }
  let colorBlend : ColorBlendState :=
    { logicOpEnable := false
      logicOp := .valueInitialized
      attachments := [colorBlendAttachment]
      blendConstants := [0, 0, 0, 0] }
  { shaderProgram := shader
    inputAssemblyState := inputAssembly
    vertexInputState := vertexInput
    rasterizationState := rasterization
    depthStencilState := depthStencil
    colorBlendState := colorBlend }

/-- The descriptor `pipelineInfo` that `CreateShadingPipeline` builds. -/
def shadingPipelineInfo (shader : Nat) : GFX.GraphicsPipelineInfo :=
  let inputAssembly : InputAssemblyState :=
    { topology := .TRIANGLE_LIST, primitiveRestartEnable := false }
  let vertexInput : VertexInputState := {}
  let rasterization := GetDefaultRasterizationState
  let rasterization := { rasterization with cullMode := .NONE }
  let depthStencil : GFX.DepthStencilState :=
    { depthTestEnable := false, depthWriteEnable := false }
  let colorBlendAttachment : ColorBlendAttachmentState :=
    { blendEnable := false
      srcColorBlendFactor := .ONE
      dstColorBlendFactor := .ZERO
      colorBlendOp := .ADD
      srcAlphaBlendFactor := .ONE
      dstAlphaBlendFactor := .ZERO
      alphaBlendOp := .ADD
      colorWriteMask := .RGBA_BITS }
  let colorBlend : ColorBlendState :=
    { logicOpEnable := false
      logicOp := .valueInitialized
      attachments := [colorBlendAttachment]
      blendConstants := [0, 0, 0, 0] }
  { shaderProgram := shader
    inputAssemblyState := inputAssembly
    vertexInputState := vertexInput
    rasterizationState := rasterization
    depthStencilState := depthStencil
    colorBlendState := colorBlend }

/-- The text of the exception the three `Create...Pipeline` functions throw. -/
def invalidPipeline : String := "Invalid pipeline"

/-- Function `CreateScenePipeline`. `compile` is `GFX::CompileGraphicsPipeline`,
`shader` the program linked from the two shader files; a `throw` is the
`error` result. -/
def CreateScenePipeline (compile : GFX.GraphicsPipelineInfo → Option GraphicsPipeline)
    (shader : Nat) : Except String GraphicsPipeline :=
  let pipelineInfo := scenePipelineInfo shader
  let pipeline := compile pipelineInfo
  match pipeline with
  | none => .error invalidPipeline
  | some p => .ok p

/-- Function `CreateShadowPipeline`. -/
def CreateShadowPipeline (compile : GFX.GraphicsPipelineInfo → Option GraphicsPipeline)
    (shader : Nat) : Except String GraphicsPipeline :=
  let pipelineInfo := shadowPipelineInfo shader
  let pipeline := compile pipelineInfo
  match pipeline with
  | none => .error invalidPipeline
  | some p => .ok p

/-- Function `CreateShadingPipeline`. -/
def CreateShadingPipeline (compile : GFX.GraphicsPipelineInfo → Option GraphicsPipeline)
    (shader : Nat) : Except String GraphicsPipeline :=
  let pipelineInfo := shadingPipelineInfo shader
  let pipeline := compile pipelineInfo
  match pipeline with
  | none => .error invalidPipeline
  | some p => .ok p

/-! ## Scene data (`deferred.cpp`) -/

/-- Struct `Vertex`. -/
structure Vertex where
  position : Vec3 ℚ
  normal : Vec3 ℚ
  uv : Vec2 ℚ
  deriving DecidableEq, Repr

/-- Struct `ObjectUniforms`. -/
structure ObjectUniforms where
  model : Mat4 ℚ
  color : Vec4 ℚ
  deriving DecidableEq, Repr

/-- Struct `ShadingUniforms`; `alignas(16)` leaves three words of tail padding
after `rMax`, which `SubData` copies along with the members. -/
structure ShadingUniforms (F : Type) where
  viewPos : Vec4 F
  sunViewProj : Mat4 F
  sunDir : Vec4 F
  sunStrength : Vec4 F
  rMax : F
  pad0 : F
  pad1 : F
  pad2 : F

/-- The 32 words of a `ShadingUniforms` object in memory order. -/
def ShadingUniforms.toWords {F : Type} (s : ShadingUniforms F) : List F :=
  s.viewPos.toWords ++ s.sunViewProj.toWords ++ s.sunDir.toWords ++ s.sunStrength.toWords
    ++ [s.rMax, s.pad0, s.pad1, s.pad2]

/-- Table `gCubeVertices`. -/
def gCubeVertices : List Vertex :=
  [ -- front (+z)
    ⟨⟨-1/2, -1/2, 1/2⟩, ⟨0, 0, 1⟩, ⟨0, 0⟩⟩,
    ⟨⟨1/2, -1/2, 1/2⟩, ⟨0, 0, 1⟩, ⟨1, 0⟩⟩,
    ⟨⟨1/2, 1/2, 1/2⟩, ⟨0, 0, 1⟩, ⟨1, 1⟩⟩,
    ⟨⟨-1/2, 1/2, 1/2⟩, ⟨0, 0, 1⟩, ⟨0, 1⟩⟩,
    -- back (-z)
    ⟨⟨-1/2, 1/2, -1/2⟩, ⟨0, 0, -1⟩, ⟨1, 1⟩⟩,
    ⟨⟨1/2, 1/2, -1/2⟩, ⟨0, 0, -1⟩, ⟨0, 1⟩⟩,
    ⟨⟨1/2, -1/2, -1/2⟩, ⟨0, 0, -1⟩, ⟨0, 0⟩⟩,
    ⟨⟨-1/2, -1/2, -1/2⟩, ⟨0, 0, -1⟩, ⟨1, 0⟩⟩,
    -- left (-x)
    ⟨⟨-1/2, -1/2, -1/2⟩, ⟨-1, 0, 0⟩, ⟨0, 0⟩⟩,
    ⟨⟨-1/2, -1/2, 1/2⟩, ⟨-1, 0, 0⟩, ⟨1, 0⟩⟩,
    ⟨⟨-1/2, 1/2, 1/2⟩, ⟨-1, 0, 0⟩, ⟨1, 1⟩⟩,
    ⟨⟨-1/2, 1/2, -1/2⟩, ⟨-1, 0, 0⟩, ⟨0, 1⟩⟩,
    -- right (+x)
    ⟨⟨1/2, 1/2, -1/2⟩, ⟨1, 0, 0⟩, ⟨1, 1⟩⟩,
    ⟨⟨1/2, 1/2, 1/2⟩, ⟨1, 0, 0⟩, ⟨0, 1⟩⟩,
    ⟨⟨1/2, -1/2, 1/2⟩, ⟨1, 0, 0⟩, ⟨0, 0⟩⟩,
    ⟨⟨1/2, -1/2, -1/2⟩, ⟨1, 0, 0⟩, ⟨1, 0⟩⟩,
    -- top (+y)
    ⟨⟨-1/2, 1/2, 1/2⟩, ⟨0, 1, 0⟩, ⟨0, 0⟩⟩,
    ⟨⟨1/2, 1/2, 1/2⟩, ⟨0, 1, 0⟩, ⟨1, 0⟩⟩,
    ⟨⟨1/2, 1/2, -1/2⟩, ⟨0, 1, 0⟩, ⟨1, 1⟩⟩,
    ⟨⟨-1/2, 1/2, -1/2⟩, ⟨0, 1, 0⟩, ⟨0, 1⟩⟩,
    -- bottom (-y)
    ⟨⟨-1/2, -1/2, -1/2⟩, ⟨0, -1, 0⟩, ⟨0, 0⟩⟩,
    ⟨⟨1/2, -1/2, -1/2⟩, ⟨0, -1, 0⟩, ⟨1, 0⟩⟩,
    ⟨⟨1/2, -1/2, 1/2⟩, ⟨0, -1, 0⟩, ⟨1, 1⟩⟩,
    ⟨⟨-1/2, -1/2, 1/2⟩, ⟨0, -1, 0⟩, ⟨0, 1⟩⟩ ]

/-- Table `gCubeIndices` (`uint16_t` entries). -/
def gCubeIndices : List Nat :=
  [ 0, 1, 2,
    2, 3, 0,
    4, 5, 6,
    6, 7, 4,
    8, 9, 10,
    10, 11, 8,
    12, 13, 14,
    14, 15, 12,
    16, 17, 18,
    18, 19, 16,
    20, 21, 22,
    22, 23, 20 ]

/-- Size in bytes of one `uint16_t` index. -/
def sizeofIndex : Nat := 2

/-- Function `glm::translate(m, v)`: the last column becomes
`m[0] * v.x + m[1] * v.y + m[2] * v.z + m[3]`, the others are kept. -/
def translate (m : Mat4 ℚ) (v : Vec3 ℚ) : Mat4 ℚ :=
  { m with
    c3 := ⟨m.c0.x * v.x + m.c1.x * v.y + m.c2.x * v.z + m.c3.x,
           m.c0.y * v.x + m.c1.y * v.y + m.c2.y * v.z + m.c3.y,
           m.c0.z * v.x + m.c1.z * v.y + m.c2.z * v.z + m.c3.z,
           m.c0.w * v.x + m.c1.w * v.y + m.c2.w * v.z + m.c3.w⟩ }

/-- Scalar multiple of a `vec4`. -/
def Vec4.smul (v : Vec4 ℚ) (k : ℚ) : Vec4 ℚ := ⟨v.x * k, v.y * k, v.z * k, v.w * k⟩

/-- Function `glm::scale(m, v)`: the first three columns are multiplied by the
components of `v`, the last column is kept. -/
def scale (m : Mat4 ℚ) (v : Vec3 ℚ) : Mat4 ℚ :=
  ⟨m.c0.smul v.x, m.c1.smul v.y, m.c2.smul v.z, m.c3⟩

/-- Matrix `glm::mat4{ 1 }`: the identity. -/
def mat4Identity : Mat4 ℚ :=
  ⟨⟨1, 0, 0, 0⟩, ⟨0, 1, 0, 0⟩, ⟨0, 0, 1, 0⟩, ⟨0, 0, 0, 1⟩⟩

/-- Product `m * v` of a `mat4` and a `vec4` (column-major). -/
def Mat4.mulVec (m : Mat4 ℚ) (v : Vec4 ℚ) : Vec4 ℚ :=
  ⟨m.c0.x * v.x + m.c1.x * v.y + m.c2.x * v.z + m.c3.x * v.w,
   m.c0.y * v.x + m.c1.y * v.y + m.c2.y * v.z + m.c3.y * v.w,
   m.c0.z * v.x + m.c1.z * v.y + m.c2.z * v.z + m.c3.z * v.w,
   m.c0.w * v.x + m.c1.w * v.y + m.c2.w * v.z + m.c3.w * v.w⟩

/-- Array `objects` of `RenderScene`: translation, scale and colour of each
object. -/
def objects : List (Vec3 ℚ × Vec3 ℚ × Vec3 ℚ) :=
  [ (⟨0, 1/2, -1⟩, ⟨3, 1, 1⟩, ⟨1/2, 1/2, 1/2⟩),
    (⟨-1, 1/2, 0⟩, ⟨1, 1, 1⟩, ⟨1/10, 1/10, 9/10⟩),
    (⟨1, 1/2, 0⟩, ⟨1, 1, 1⟩, ⟨1/10, 1/10, 9/10⟩),
    (⟨0, -1/2, -1/2⟩, ⟨3, 1, 2⟩, ⟨1/2, 1/2, 1/2⟩),
    (⟨0, 3/2, -1/2⟩, ⟨3, 1, 2⟩, ⟨1/5, 7/10, 1/5⟩),
    (⟨0, 1/4, 0⟩, ⟨1/4, 1/2, 1/4⟩, ⟨1/2, 1/10, 1/10⟩) ]

/-- Body of the loop that fills `objectUniforms`: one entry per object. -/
def makeObjectUniforms (o : Vec3 ℚ × Vec3 ℚ × Vec3 ℚ) : ObjectUniforms :=
  let model := mat4Identity
  let model := translate model o.1
  let model := scale model o.2.1
  ⟨model, ⟨o.2.2.x, o.2.2.y, o.2.2.z, 0⟩⟩

/-- Vector `objectUniforms` after the fill loop (`push_back` in array order). -/
def objectUniforms : List ObjectUniforms := objects.map makeObjectUniforms

/-! ## Buffers and GFX calls of the frame loop -/

/-- The buffers created by `RenderScene`. -/
inductive BufferName
  | vertexBuffer
  | indexBuffer
  | objectBuffer
  | globalUniformsBuffer
  | shadingUniformsBuffer
  deriving DecidableEq, Repr

/-- Result of `Size()`: the byte size each buffer is created with
(`Buffer::Create` of the data or of an explicit size). -/
def BufferName.Size : BufferName → Nat
  | .vertexBuffer => gCubeVertices.length * sizeofVertex
  | .indexBuffer => gCubeIndices.length * sizeofIndex
  | .objectBuffer => objectUniforms.length * sizeofObjectUniforms
  | .globalUniformsBuffer => sizeofGlobalUniforms
  | .shadingUniformsBuffer => sizeofShadingUniforms

/-- The two off-screen render infos of `RenderScene`. -/
inductive RenderInfoName
  | gbufferRenderInfo
  | rsmRenderInfo
  deriving DecidableEq, Repr

/-- The texture views of `RenderScene`. -/
inductive TextureViewName
  | gcolorTexView
  | gnormalTexView
  | gdepthTexView
  | rfluxTexView
  | rnormalTexView
  | rdepthTexView
  deriving DecidableEq, Repr

/-- The samplers of `RenderScene`. -/
inductive SamplerName
  | nearestSampler
  | rsmColorSampler
  | rsmDepthSampler
  | rsmShadowSampler
  deriving DecidableEq, Repr

/-- Enumeration `GFX::IndexType`, as far as the example uses it. -/
inductive IndexType
  | UNSIGNED_SHORT
  deriving DecidableEq, Repr

/-- One call into the GFX layer, with its arguments. `SubData` carries the
object it copies as 4-byte words, so it writes `4 * data.length` bytes. -/
inductive GfxCall (F : Type)
  | SubData (buffer : BufferName) (data : List F) (byteOffset : Nat)
  | BeginRendering (info : RenderInfoName)
  | BeginSwapchainRendering
  | EndRendering
  | BindGraphicsPipeline (pipeline : GraphicsPipeline)
  | BindVertexBuffer (bindingIndex : Nat) (buffer : BufferName) (offset stride : Nat)
  | BindIndexBuffer (buffer : BufferName) (indexType : IndexType)
  | BindUniformBuffer (index : Nat) (buffer : BufferName) (offset size : Nat)
  | BindStorageBuffer (index : Nat) (buffer : BufferName) (offset size : Nat)
  | BindSampledImage (index : Nat) (view : TextureViewName) (sampler : SamplerName)
  | DrawIndexed (indexCount instanceCount firstIndex : Nat) (vertexOffset : Int)
      (firstInstance : Nat)
  | Draw (vertexCount instanceCount firstVertex firstInstance : Nat)

/-- The three pipelines `RenderScene` creates before the loop. -/
structure Scene where
  scenePipeline : GraphicsPipeline
  rsmPipeline : GraphicsPipeline
  shadingPipeline : GraphicsPipeline
  deriving DecidableEq, Repr

/-- What one iteration computes on the CPU before it records: the camera
`viewProj` and the updated `shadingUniforms` (which holds `sunViewProj`). -/
structure FrameInput (F : Type) where
  viewProj : Mat4 F
  shadingUniforms : ShadingUniforms F

/-- The GFX calls of one iteration of the `while` loop of `RenderScene`, in
program order. `inverse` stands for `glm::inverse`. -/
def frame {F : Type} (inverse : Mat4 F → Mat4 F) (sc : Scene) (f : FrameInput F) :
    List (GfxCall F) :=
  [ .SubData .globalUniformsBuffer f.viewProj.toWords 0,
    .SubData .shadingUniformsBuffer f.shadingUniforms.toWords 0,
    -- geometry buffer pass
    .BeginRendering .gbufferRenderInfo,
    .BindGraphicsPipeline sc.scenePipeline,
    .BindVertexBuffer 0 .vertexBuffer 0 sizeofVertex,
    .BindIndexBuffer .indexBuffer .UNSIGNED_SHORT,
    .BindUniformBuffer 0 .globalUniformsBuffer 0 BufferName.globalUniformsBuffer.Size,
    .BindStorageBuffer 1 .objectBuffer 0 BufferName.objectBuffer.Size,
    .DrawIndexed gCubeIndices.length objectUniforms.length 0 0 0,
    .EndRendering,
    .SubData .globalUniformsBuffer f.shadingUniforms.sunViewProj.toWords 0,
    -- shadow map (RSM) pass
    .BeginRendering .rsmRenderInfo,
    .BindGraphicsPipeline sc.rsmPipeline,
    .BindVertexBuffer 0 .vertexBuffer 0 sizeofVertex,
    .BindIndexBuffer .indexBuffer .UNSIGNED_SHORT,
    .BindUniformBuffer 0 .globalUniformsBuffer 0 BufferName.globalUniformsBuffer.Size,
    .BindUniformBuffer 1 .shadingUniformsBuffer 0 BufferName.shadingUniformsBuffer.Size,
    .BindStorageBuffer 1 .objectBuffer 0 BufferName.objectBuffer.Size,
    .DrawIndexed gCubeIndices.length objectUniforms.length 0 0 0,
    .EndRendering,
    .SubData .globalUniformsBuffer f.viewProj.toWords 0,
    .SubData .globalUniformsBuffer (inverse f.viewProj).toWords sizeofMat4,
    -- shading pass (full screen tri)
    .BeginSwapchainRendering,
    .BindGraphicsPipeline sc.shadingPipeline,
    .BindSampledImage 0 .gcolorTexView .nearestSampler,
    .BindSampledImage 1 .gnormalTexView .nearestSampler,
    .BindSampledImage 2 .gdepthTexView .nearestSampler,
    .BindSampledImage 3 .rfluxTexView .rsmColorSampler,
    .BindSampledImage 4 .rnormalTexView .rsmColorSampler,
    .BindSampledImage 5 .rdepthTexView .rsmDepthSampler,
    .BindSampledImage 6 .rdepthTexView .rsmShadowSampler,
    .BindUniformBuffer 0 .globalUniformsBuffer 0 BufferName.globalUniformsBuffer.Size,
    .BindUniformBuffer 1 .shadingUniformsBuffer 0 BufferName.shadingUniformsBuffer.Size,
    .Draw 3 1 0 0,
    .EndRendering ]

/-- The GFX calls of a run of the loop: one `frame` per iteration. -/
def frames {F : Type} (inverse : Mat4 F → Mat4 F) (sc : Scene) :
    List (FrameInput F) → List (GfxCall F)
  | [] => []
  | f :: fs => frame inverse sc f ++ frames inverse sc fs

/-! ## Recorder state -/

/-- The two states of the render-target binder. -/
inductive RenderState
  | Idle
  | Recording
  deriving DecidableEq, Repr

/-- What the calls of a frame act on: the render scope, the pipeline bound
since the scope was opened, and the words held by the two uniform buffers the
loop writes. -/
structure RecorderState (F : Type) where
  render : RenderState
  pipeline : Option GraphicsPipeline
  globalUniforms : List F
  shadingUniforms : List F

/-- Overwrite the words of `buf` from byte offset `byteOffset` with `data`; a
write that does not fit the buffer is not performed. -/
def writeWords {F : Type} (buf : List F) (byteOffset : Nat) (data : List F) : List F :=
  if byteOffset / 4 + data.length ≤ buf.length then
    buf.take (byteOffset / 4) ++ data ++ buf.drop (byteOffset / 4 + data.length)
  else buf

/-- The sixteen words of the matrix stored at byte offset `byteOffset`. -/
def readMat4 {F : Type} (buf : List F) (byteOffset : Nat) : List F :=
  (buf.drop (byteOffset / 4)).take 16

/-- Modelled from the spec: the effect of one GFX call on the recorder state
(Rendering.cpp and Buffer.cpp are not part of the sources). A Begin call opens
a scope (Idle to Recording) with no pipeline bound yet, `EndRendering` closes
it, `BindGraphicsPipeline` records the pipeline, `SubData` overwrites a byte
range of its buffer at once; other calls leave these fields alone. -/
def exec {F : Type} (s : RecorderState F) : GfxCall F → RecorderState F
  | .SubData .globalUniformsBuffer data off =>
      { s with globalUniforms := writeWords s.globalUniforms off data }
  | .SubData .shadingUniformsBuffer data off =>
      { s with shadingUniforms := writeWords s.shadingUniforms off data }
  | .BeginRendering _ => { s with render := .Recording, pipeline := none }
  | .BeginSwapchainRendering => { s with render := .Recording, pipeline := none }
  | .EndRendering => { s with render := .Idle, pipeline := none }
  | .BindGraphicsPipeline p => { s with pipeline := some p }
  | _ => s

/-- State after a sequence of calls. -/
def run {F : Type} (s : RecorderState F) : List (GfxCall F) → RecorderState F
  | [] => s
  | c :: cs => run (exec s c) cs

/-- Each call of a sequence paired with the state it is issued in. -/
def trace {F : Type} (s : RecorderState F) :
    List (GfxCall F) → List (RecorderState F × GfxCall F)
  | [] => []
  | c :: cs => (s, c) :: trace (exec s c) cs

/-- Whether the call opens a render scope. -/
def GfxCall.isBegin {F : Type} : GfxCall F → Bool
  | .BeginRendering _ => true
  | .BeginSwapchainRendering => true
  | _ => false

/-- Whether the call closes a render scope. -/
def GfxCall.isEnd {F : Type} : GfxCall F → Bool
  | .EndRendering => true
  | _ => false

/-- Whether the call is a `Cmd::Bind*` of a resource (vertex, index, uniform,
storage buffer or sampled image). -/
def GfxCall.isResourceBind {F : Type} : GfxCall F → Bool
  | .BindVertexBuffer _ _ _ _ => true
  | .BindIndexBuffer _ _ => true
  | .BindUniformBuffer _ _ _ _ => true
  | .BindStorageBuffer _ _ _ _ => true
  | .BindSampledImage _ _ _ => true
  | _ => false

/-- Whether the call is `Cmd::Draw` or `Cmd::DrawIndexed`. -/
def GfxCall.isDraw {F : Type} : GfxCall F → Bool
  | .DrawIndexed _ _ _ _ _ => true
  | .Draw _ _ _ _ => true
  | _ => false

/-- The state `RenderScene` enters the loop with: no scope open, no pipeline
bound, and whatever the two uniform buffers hold. -/
def loopEntry {F : Type} (g sh : List F) : RecorderState F := ⟨.Idle, none, g, sh⟩

/-- What a draw call finds when it is issued: the pipeline bound in its scope
and the matrices held by the global uniform buffer at byte offsets 0 and
`sizeof(glm::mat4)`. -/
structure DrawObservation (F : Type) where
  pipeline : Option GraphicsPipeline
  call : GfxCall F
  matrixAt0 : List F
  matrixAt64 : List F

/-- The draw calls of a trace, each with what it finds. -/
def observeDraws {F : Type} : List (RecorderState F × GfxCall F) → List (DrawObservation F)
  | [] => []
  | (s, c) :: ps =>
    if c.isDraw then
      ⟨s.pipeline, c, readMat4 s.globalUniforms 0, readMat4 s.globalUniforms sizeofMat4⟩ ::
        observeDraws ps
    else observeDraws ps

/-- The buffer and byte range (offset, size) a call writes or binds, for
`SubData`, `BindUniformBuffer` and `BindStorageBuffer`. -/
def GfxCall.byteRange {F : Type} : GfxCall F → Option (BufferName × Nat × Nat)
  | .SubData buffer data byteOffset => some (buffer, byteOffset, 4 * data.length)
  | .BindUniformBuffer _ buffer offset size => some (buffer, offset, size)
  | .BindStorageBuffer _ buffer offset size => some (buffer, offset, size)
  | _ => none

/-- The byte range of a `SubData` call. -/
def GfxCall.subDataRange {F : Type} : GfxCall F → Option (BufferName × Nat × Nat)
  | .SubData buffer data byteOffset => some (buffer, byteOffset, 4 * data.length)
  | _ => none

/-- The byte range of a `BindUniformBuffer` or `BindStorageBuffer` call. -/
def GfxCall.bindRange {F : Type} : GfxCall F → Option (BufferName × Nat × Nat)
  | .BindUniformBuffer _ buffer offset size => some (buffer, offset, size)
  | .BindStorageBuffer _ buffer offset size => some (buffer, offset, size)
  | _ => none

/-- The stride of a `BindVertexBuffer` call. -/
def GfxCall.vertexStride {F : Type} : GfxCall F → Option Nat
  | .BindVertexBuffer _ _ _ stride => some stride
  | _ => none

/-- The byte range `[offset, offset + size)` a vertex attribute occupies. -/
def VertexInputBindingDescription.range (d : VertexInputBindingDescription) : Nat × Nat :=
  (d.offset, d.offset + d.format.byteSize)

/-- The homogeneous point `(v, 1)`. -/
def Vec3.point (v : Vec3 ℚ) : Vec4 ℚ := ⟨v.x, v.y, v.z, 1⟩

/-- A sample scene: three distinct pipeline handles. -/
def sampleScene : Scene := ⟨⟨1⟩, ⟨2⟩, ⟨3⟩⟩

/-- A sample matrix with sixteen distinct entries starting at `k`. -/
def sampleMat4 (k : Nat) : Mat4 Nat :=
  ⟨⟨k, k + 1, k + 2, k + 3⟩, ⟨k + 4, k + 5, k + 6, k + 7⟩, ⟨k + 8, k + 9, k + 10, k + 11⟩,
    ⟨k + 12, k + 13, k + 14, k + 15⟩⟩

/-- A sample frame input over natural-number words. -/
def sampleFrame : FrameInput Nat :=
  ⟨sampleMat4 100, ⟨⟨1, 2, 3, 0⟩, sampleMat4 200, ⟨4, 5, 6, 0⟩, ⟨2, 2, 2, 0⟩, 7, 0, 0, 0⟩⟩

/-- A sample stand-in for `glm::inverse` on the sample matrices. -/
def sampleInverse (m : Mat4 Nat) : Mat4 Nat := sampleMat4 (m.c0.x + 1000)

/-- Whether the call is `Cmd::DrawIndexed`. -/
def GfxCall.isDrawIndexed {F : Type} : GfxCall F → Bool
  | .DrawIndexed _ _ _ _ _ => true
  | _ => false

/-- The `DrawIndexed` calls of a trace, each with the pipeline bound in its
scope. -/
def indexedDraws {F : Type} (t : List (RecorderState F × GfxCall F)) :
    List (Option GraphicsPipeline × GfxCall F) :=
  t.filterMap (fun p => if p.2.isDrawIndexed then some (p.1.pipeline, p.2) else none)

/-- What the claim on the per-instance array says of a fixture object
(translation, scale, colour) and its `ObjectUniforms` entry: the model matrix
maps every point `(v, 1)` to `(t + s * v, 1)` componentwise, and the colour is
`(c, 0)`. -/
def PositionsObject (o : Vec3 ℚ × Vec3 ℚ × Vec3 ℚ) (u : ObjectUniforms) : Prop :=
  (∀ v : Vec3 ℚ, u.model.mulVec v.point =
      ⟨o.1.x + o.2.1.x * v.x, o.1.y + o.2.1.y * v.y, o.1.z + o.2.1.z * v.z, 1⟩) ∧
    u.color = ⟨o.2.2.x, o.2.2.y, o.2.2.z, 0⟩

/-- A sample descriptor: the defaults of `Pipeline.h` with two shaders set. -/
def sampleInfo : GraphicsPipelineInfo := { vertexShader := some 1, fragmentShader := some 2 }

/-- A sample validation: both shader pointers are set. -/
def sampleValid (info : GraphicsPipelineInfo) : Bool :=
  info.vertexShader.isSome && info.fragmentShader.isSome

/-- A sample cache: one entry compiled earlier, next id 5. -/
def sampleCache : PipelineCache :=
  ⟨[({ vertexShader := some 7, fragmentShader := some 8 }, ⟨4⟩)], 5⟩

/-! ## Camera, cursor and mesh winding (`deferred.cpp`)

The camera is modelled over the reals, the mesh over the rationals, and the
cursor callback over finite binary32 and binary64 values. -/

/-- Sum `a + b` of two `vec3`. -/
def Vec3.add {F : Type} [Add F] (a b : Vec3 F) : Vec3 F := ⟨a.x + b.x, a.y + b.y, a.z + b.z⟩

/-- Difference `a - b` of two `vec3`. -/
def Vec3.sub {F : Type} [Sub F] (a b : Vec3 F) : Vec3 F := ⟨a.x - b.x, a.y - b.y, a.z - b.z⟩

/-- Product `v * k` of a `vec3` and a scalar. -/
def Vec3.scaleBy {F : Type} [Mul F] (v : Vec3 F) (k : F) : Vec3 F := ⟨v.x * k, v.y * k, v.z * k⟩

/-- Function `glm::dot` on `vec3`. -/
def Vec3.dot {F : Type} [Add F] [Mul F] (a b : Vec3 F) : F := a.x * b.x + a.y * b.y + a.z * b.z

/-- Function `glm::cross`. -/
def Vec3.cross {F : Type} [Sub F] [Mul F] (a b : Vec3 F) : Vec3 F :=
  ⟨a.y * b.z - b.y * a.z, a.z * b.x - b.z * a.x, a.x * b.y - b.x * a.y⟩

/-- Function `glm::length` on `vec3`, over the reals. -/
noncomputable def Vec3.length (v : Vec3 ℝ) : ℝ := Real.sqrt (v.dot v)

/-- Function `glm::normalize`: `v * inversesqrt(dot(v, v))`, over the reals. -/
noncomputable def Vec3.normalize (v : Vec3 ℝ) : Vec3 ℝ := v.scaleBy (1 / Real.sqrt (v.dot v))

/-- Function `glm::clamp(x, minVal, maxVal)`: `min(max(x, minVal), maxVal)`. -/
noncomputable def clamp (x minVal maxVal : ℝ) : ℝ := min (max x minVal) maxVal

/-- Struct `View`, over the reals. -/
structure View where
  position : Vec3 ℝ
  pitch : ℝ
  yaw : ℝ

/-- Method `View::GetForwardDir`. -/
noncomputable def View.GetForwardDir (v : View) : Vec3 ℝ :=
  ⟨Real.cos v.pitch * Real.cos v.yaw, Real.sin v.pitch, Real.cos v.pitch * Real.sin v.yaw⟩

/-- Method `View::SetForwardDir`; a failed `assert` is the result `none`. -/
noncomputable def View.SetForwardDir (v : View) (dir : Vec3 ℝ) : Option View :=
  if |1 - dir.length| < 0.0001 then
    let pitch := Real.arcsin dir.y
    let yaw := Real.arccos (dir.x / Real.cos pitch)
    let yaw := if dir.x ≥ 0 ∧ dir.z < 0 then yaw * -1 else yaw
    some { v with pitch := pitch, yaw := yaw }
  else none

/-- What one iteration of the loop reads from the window: the frame time, the
movement keys that are down, and the cursor offsets left by the callback. -/
structure FrameEvents where
  dt : ℝ
  keyW : Bool
  keyS : Bool
  keyD : Bool
  keyA : Bool
  cursorOffsetX : ℝ
  cursorOffsetY : ℝ

/-- Global `gSensitivity`. -/
noncomputable def gSensitivity : ℝ := 0.005

/-- Constant `glm::half_pi<float>()`, over the reals. -/
noncomputable def halfPi : ℝ := Real.pi / 2

/-- The camera `RenderScene` enters the loop with: `View camera;` with
`position = { 0, .5, 1 }` and `yaw = -half_pi`. -/
noncomputable def initialCamera : View := ⟨⟨0, 0.5, 1⟩, 0, -halfPi⟩

/-- The camera update of one iteration of the loop of `RenderScene`. -/
noncomputable def updateCamera (camera : View) (e : FrameEvents) : View :=
  let forward := camera.GetForwardDir
  let up : Vec3 ℝ := ⟨0, 1, 0⟩
  let right := (forward.cross up).normalize
  let position := camera.position
  let position := if e.keyW then position.add (forward.scaleBy e.dt) else position
  let position := if e.keyS then position.sub (forward.scaleBy e.dt) else position
  let position := if e.keyD then position.add (right.scaleBy e.dt) else position
  let position := if e.keyA then position.sub (right.scaleBy e.dt) else position
  let yaw := camera.yaw + e.cursorOffsetX * gSensitivity
  let pitch := camera.pitch + e.cursorOffsetY * gSensitivity
  let pitch := clamp pitch (-halfPi + 1e-4) (halfPi - 1e-4)
  ⟨position, pitch, yaw⟩

/-- The camera after the iterations with the given events, oldest first. -/
noncomputable def cameraAfter (es : List FrameEvents) : View := es.foldl updateCamera initialCamera

/-! ### Floating-point values of the cursor callback

The cursor position arrives as `double`, the four cursor globals are `float`.
Every finite `double` and every finite `float` is an integer multiple of
`2 ^ -1074`, the smallest positive `double`; a value is held as that integer.
Infinities and NaN are not values of the model. -/

/-- The integer `2 ^ t`. -/
def pow2 (t : Nat) : Int := ((2 ^ t : Nat) : Int)

/-- Round `k` to the nearest multiple of `2 ^ t`, a tie going to the even
multiple (IEEE 754 round-to-nearest-even, the default rounding mode). -/
def roundToGrid (t : Nat) (k : Int) : Int :=
  let q := k / pow2 t
  let r := k % pow2 t
  if 2 * r < pow2 t then q * pow2 t
  else if pow2 t < 2 * r then (q + 1) * pow2 t
  else if q % 2 = 0 then q * pow2 t
  else (q + 1) * pow2 t

/-- Number of binary digits of `n`, counted with `fuel` halvings at most. -/
def bitLengthAux : Nat → Nat → Nat
  | 0, _ => 0
  | fuel + 1, n => if n = 0 then 0 else bitLengthAux fuel (n / 2) + 1

/-- Number of binary digits of `n`: the least `b` with `n < 2 ^ b`. -/
def bitLength (n : Nat) : Nat := bitLengthAux n n

/-- The exponent of the spacing of a binary format around `k`: a format with
`p` significand bits keeps the top `p` bits of `k`, but never goes below the
spacing `2 ^ tmin` of its subnormals. -/
def spacing (p tmin : Nat) (k : Int) : Nat := max (bitLength k.natAbs - p) tmin

/-- Whether `k * 2 ^ -1074` is a finite `float` (binary32: 24 significand
bits, subnormal spacing `2 ^ -149`, magnitude below `2 ^ 128`). -/
def IsFloat (k : Int) : Prop := k % pow2 (spacing 24 925 k) = 0 ∧ k.natAbs < 2 ^ 1202

/-- Whether `k * 2 ^ -1074` is a finite `double` (binary64: 53 significand
bits, subnormal spacing `2 ^ -1074`, magnitude below `2 ^ 1024`). -/
def IsDouble (k : Int) : Prop := k % pow2 (spacing 53 0 k) = 0 ∧ k.natAbs < 2 ^ 2098

instance (k : Int) : Decidable (IsFloat k) := by unfold IsFloat; infer_instance

instance (k : Int) : Decidable (IsDouble k) := by unfold IsDouble; infer_instance

/-- A finite `float`, held as the integer `k` with value `k * 2 ^ -1074`. -/
def Float32 : Type := { k : Int // IsFloat k }

/-- A finite `double`, held as the integer `k` with value `k * 2 ^ -1074`. -/
def Float64 : Type := { k : Int // IsDouble k }

instance : DecidableEq Float32 := by unfold Float32; infer_instance

instance : DecidableEq Float64 := by unfold Float64; infer_instance

/-- The rational a `float` stands for. -/
def Float32.toRat (f : Float32) : ℚ := f.val / 2 ^ 1074

/-- The rational a `double` stands for. -/
def Float64.toRat (d : Float64) : ℚ := d.val / 2 ^ 1074

/-- Conversion to `float` of the value `k * 2 ^ -1074` (the narrowing a store
of a `double` expression to a `float` variable performs): rounded to nearest
even; `none` when the result is not a finite `float`. -/
def toFloat (k : Int) : Option Float32 :=
  if h : IsFloat (roundToGrid (spacing 24 925 k) k) then some ⟨_, h⟩ else none

/-- The `double` result of an operation whose exact value is `k * 2 ^ -1074`:
rounded to nearest even; `none` when the result is not a finite `double`. -/
def toDouble (k : Int) : Option Float64 :=
  if h : IsDouble (roundToGrid (spacing 53 0 k) k) then some ⟨_, h⟩ else none

/-- The `float` zero. -/
def Float32.zero : Float32 := ⟨0, by decide!⟩

/-- Statement `f = a - b;` for a `float` variable `f`, a `double` operand and a
`float` operand promoted to `double`: the difference is computed in `double`
and narrowed to `float` by the store. -/
def storeDifference (a b : Int) : Option Float32 :=
  match toDouble (a - b) with
  | some d => toFloat d.val
  | none => none

/-- State of `CursorPosCallback`: its static `firstFrame` and the four `float`
cursor globals. -/
structure CursorState where
  firstFrame : Bool
  gPreviousCursorX : Float32
  gPreviousCursorY : Float32
  gCursorOffsetX : Float32
  gCursorOffsetY : Float32
  deriving DecidableEq

/-- Constant `gWindowWidth`. -/
def gWindowWidth : Nat := 1280
/-- Constant `gWindowHeight`. -/
def gWindowHeight : Nat := 720

/-- The cursor globals and the static as initialised at program start:
`gWindowWidth / 2.0f` and `gWindowHeight / 2.0f`, offsets 0, `firstFrame` set. -/
def initialCursorState : CursorState :=
  ⟨true, ⟨Int.ofNat (gWindowWidth / 2) * pow2 1074, by decide!⟩,
    ⟨Int.ofNat (gWindowHeight / 2) * pow2 1074, by decide!⟩, Float32.zero, Float32.zero⟩

/-- Function `CursorPosCallback`, with `double` arguments and `float` globals;
the result is `none` when a store leaves the finite `float` range. -/
def CursorPosCallback (s : CursorState) (currentCursorX currentCursorY : Float64) :
    Option CursorState := do
  let s ←
    if s.firstFrame then do
      let px ← toFloat currentCursorX.val
      let py ← toFloat currentCursorY.val
      pure { s with gPreviousCursorX := px, gPreviousCursorY := py, firstFrame := false }
    else pure s
  let ox ← storeDifference currentCursorX.val s.gPreviousCursorX.val
  let s := { s with gCursorOffsetX := ox }
  let oy ← storeDifference s.gPreviousCursorY.val currentCursorY.val
  let s := { s with gCursorOffsetY := oy }
  let px ← toFloat currentCursorX.val
  let s := { s with gPreviousCursorX := px }
  let py ← toFloat currentCursorY.val
  pure { s with gPreviousCursorY := py }

/-- The `double` nearest to 0.1: `3602879701896397 * 2 ^ -55`. -/
def doubleTenth : Float64 := ⟨3602879701896397 * pow2 1019, by decide!⟩

/-- The triangles a `TRIANGLE_LIST` draw assembles from an index list:
consecutive triples. -/
def triangles : List Nat → List (Nat × Nat × Nat)
  | i0 :: i1 :: i2 :: rest => (i0, i1, i2) :: triangles rest
  | _ => []

/-- What the claim on the winding says of one triangle of the cube: its three
vertices exist, carry the same normal `n`, lie on the plane `position . n =
0.5`, and `cross(p1 - p0, p2 - p0) . n` is positive. -/
def OutwardCounterClockwise (t : Nat × Nat × Nat) : Prop :=
  match gCubeVertices[t.1]?, gCubeVertices[t.2.1]?, gCubeVertices[t.2.2]? with
  | some v0, some v1, some v2 =>
    v1.normal = v0.normal ∧ v2.normal = v0.normal ∧
      v0.position.dot v0.normal = 1 / 2 ∧ v1.position.dot v0.normal = 1 / 2 ∧
      v2.position.dot v0.normal = 1 / 2 ∧
      0 < ((v1.position.sub v0.position).cross (v2.position.sub v0.position)).dot v0.normal
  | _, _, _ => False

/-! ## Theorems -/

theorem run_append {F : Type} (s : RecorderState F) (a b : List (GfxCall F)) :
    run s (a ++ b) = run (run s a) b := by
  induction a generalizing s with
  | nil => rfl
  | cons c cs ih => simp [run, ih]

theorem trace_append {F : Type} (s : RecorderState F) (a b : List (GfxCall F)) :
    trace s (a ++ b) = trace s a ++ trace (run s a) b := by
  induction a generalizing s with
  | nil => rfl
  | cons c cs ih => simp [trace, run, ih]

/-- Within one frame started in Idle, Begin calls meet Idle, End calls meet
Recording, and the frame leaves the machine Idle with no pipeline bound. -/
theorem frame_scopes {F : Type} (inverse : Mat4 F → Mat4 F) (sc : Scene) (f : FrameInput F)
    (s : RecorderState F) (hs : s.render = .Idle) :
    (∀ p ∈ trace s (frame inverse sc f),
        (p.2.isBegin = true → p.1.render = .Idle) ∧
        (p.2.isEnd = true → p.1.render = .Recording) ∧
        (p.2.isResourceBind = true ∨ p.2.isDraw = true →
          p.1.render = .Recording ∧ p.1.pipeline.isSome = true)) ∧
      (run s (frame inverse sc f)).render = .Idle := by
  obtain ⟨r, p, g, sh⟩ := s
  simp only at hs
  subst hs
  simp [frame, trace, run, exec, GfxCall.isBegin, GfxCall.isEnd, GfxCall.isResourceBind,
    GfxCall.isDraw]

/-- Over any number of frames started in Idle, Begin calls meet Idle, End calls
meet Recording, binds and draws meet Recording with a pipeline bound, and the
run ends Idle. -/
theorem frames_scopes {F : Type} (inverse : Mat4 F → Mat4 F) (sc : Scene)
    (fs : List (FrameInput F)) (s : RecorderState F) (hs : s.render = .Idle) :
    (∀ p ∈ trace s (frames inverse sc fs),
        (p.2.isBegin = true → p.1.render = .Idle) ∧
        (p.2.isEnd = true → p.1.render = .Recording) ∧
        (p.2.isResourceBind = true ∨ p.2.isDraw = true →
          p.1.render = .Recording ∧ p.1.pipeline.isSome = true)) ∧
      (run s (frames inverse sc fs)).render = .Idle := by
  induction fs generalizing s with
  | nil => exact ⟨by simp [frames, trace], by simpa [frames, run] using hs⟩
  | cons f fs ih =>
    have h1 := frame_scopes inverse sc f s hs
    have h2 := ih (run s (frame inverse sc f)) h1.2
    refine ⟨?_, ?_⟩
    · intro p hp
      rw [frames, trace_append, List.mem_append] at hp
      rcases hp with hp | hp
      · exact h1.1 p hp
      · exact h2.1 p hp
    · rw [frames, run_append]
      exact h2.2

/-- C1: over any number of iterations of the frame loop, started in Idle,
every BeginRendering / BeginSwapchainRendering is issued in Idle, every
EndRendering is issued in Recording, and the run finishes in Idle. -/
theorem C1_begin_in_idle_end_in_recording {F : Type} (inverse : Mat4 F → Mat4 F) (sc : Scene)
    (fs : List (FrameInput F)) (g sh : List F) :
    (∀ p ∈ trace (loopEntry g sh) (frames inverse sc fs),
        (p.2.isBegin = true → p.1.render = .Idle) ∧
        (p.2.isEnd = true → p.1.render = .Recording)) ∧
      (run (loopEntry g sh) (frames inverse sc fs)).render = .Idle := by
  have h := frames_scopes inverse sc fs (loopEntry g sh) rfl
  exact ⟨fun p hp => ⟨(h.1 p hp).1, (h.1 p hp).2.1⟩, h.2⟩

/-- C2: over any number of iterations of the frame loop, every resource bind
and every Draw / DrawIndexed is issued in Recording with a pipeline bound
since the scope was opened. -/
theorem C2_binds_and_draws_in_scope_with_pipeline {F : Type} (inverse : Mat4 F → Mat4 F)
    (sc : Scene) (fs : List (FrameInput F)) (g sh : List F)
    (p : RecorderState F × GfxCall F)
    (hp : p ∈ trace (loopEntry g sh) (frames inverse sc fs))
    (hc : p.2.isResourceBind = true ∨ p.2.isDraw = true) :
    p.1.render = .Recording ∧ p.1.pipeline.isSome = true :=
  ((frames_scopes inverse sc fs (loopEntry g sh) rfl).1 p hp).2.2 hc


/-- Witness of C2 on a one-frame run: the geometry-pass DrawIndexed. -/
theorem C2_binds_and_draws_in_scope_with_pipeline_witness :
    RenderState.Recording = RenderState.Recording ∧
      (some sampleScene.scenePipeline).isSome = true :=
  C2_binds_and_draws_in_scope_with_pipeline sampleInverse sampleScene [sampleFrame]
    (List.replicate 32 0) (List.replicate 32 0)
    (⟨.Recording, some sampleScene.scenePipeline,
        writeWords (List.replicate 32 0) 0 sampleFrame.viewProj.toWords,
        writeWords (List.replicate 32 0) 0 sampleFrame.shadingUniforms.toWords⟩,
      .DrawIndexed gCubeIndices.length objectUniforms.length 0 0 0)
    (by simp [frames, frame, trace, exec, loopEntry])
    (Or.inr rfl)

/-- A defaulted comparison over a single member is the comparison of that
member. -/
theorem defaulted_single_member (m n : Nat) :
    (defaultedEq [(m, n)] = true ↔ m = n) ∧ defaultedCompare [(m, n)] = compare m n ∧
      ((defaultedCompare [(m, n)] == Ordering.lt) = true ↔ m < n) ∧
      ((defaultedCompare [(m, n)] != Ordering.gt) = true ↔ m ≤ n) := by
  have hcmp : defaultedCompare [(m, n)] = compare m n := by
    simp only [defaultedCompare]
    cases compare m n <;> rfl
  refine ⟨by simp [defaultedEq], hcmp, ?_, ?_⟩
  · rw [hcmp]
    rcases Nat.lt_trichotomy m n with h | h | h
    · rw [Nat.compare_eq_lt.mpr h]
      exact ⟨fun _ => h, fun _ => by decide⟩
    · rw [Nat.compare_eq_eq.mpr h]
      exact ⟨fun h' => absurd h' (by decide), fun h' => absurd h (Nat.ne_of_lt h')⟩
    · rw [Nat.compare_eq_gt.mpr h]
      exact ⟨fun h' => absurd h' (by decide), fun h' => absurd h' (Nat.lt_asymm h)⟩
  · rw [hcmp]
    rcases Nat.lt_trichotomy m n with h | h | h
    · rw [Nat.compare_eq_lt.mpr h]
      exact ⟨fun _ => Nat.le_of_lt h, fun _ => by decide⟩
    · rw [Nat.compare_eq_eq.mpr h]
      exact ⟨fun _ => Nat.le_of_eq h, fun _ => by decide⟩
    · rw [Nat.compare_eq_gt.mpr h]
      exact ⟨fun h' => absurd h' (by decide), fun h' => absurd h (Nat.not_lt.mpr h')⟩

/-- C3: pipeline handles compare by id alone: `==` holds exactly when the ids
are equal, `<=>` is the comparison of the ids, `<` and `<=` are the order of
the ids, and `<=` is reflexive, antisymmetric, transitive and total; for
graphics and for compute handles. -/
theorem C3_handles_compare_by_id (a b c : GraphicsPipeline) (x y z : ComputePipeline) :
    ((a.eq b = true ↔ a.id = b.id) ∧ a.cmp b = compare a.id b.id ∧
      (a.lt b = true ↔ a.id < b.id) ∧ (a.le b = true ↔ a.id ≤ b.id) ∧
      a.le a = true ∧ (a.le b = true → b.le a = true → a.eq b = true) ∧
      (a.le b = true → b.le c = true → a.le c = true) ∧
      (a.le b = true ∨ b.le a = true)) ∧
    ((x.eq y = true ↔ x.id = y.id) ∧ x.cmp y = compare x.id y.id ∧
      (x.lt y = true ↔ x.id < y.id) ∧ (x.le y = true ↔ x.id ≤ y.id) ∧
      x.le x = true ∧ (x.le y = true → y.le x = true → x.eq y = true) ∧
      (x.le y = true → y.le z = true → x.le z = true) ∧
      (x.le y = true ∨ y.le x = true)) := by
  have G : ∀ p q : GraphicsPipeline, (p.eq q = true ↔ p.id = q.id) ∧
      p.cmp q = compare p.id q.id ∧ (p.lt q = true ↔ p.id < q.id) ∧
      (p.le q = true ↔ p.id ≤ q.id) := fun p q => defaulted_single_member p.id q.id
  have K : ∀ p q : ComputePipeline, (p.eq q = true ↔ p.id = q.id) ∧
      p.cmp q = compare p.id q.id ∧ (p.lt q = true ↔ p.id < q.id) ∧
      (p.le q = true ↔ p.id ≤ q.id) := fun p q => defaulted_single_member p.id q.id
  refine ⟨⟨(G a b).1, (G a b).2.1, (G a b).2.2.1, (G a b).2.2.2, ?_, ?_, ?_, ?_⟩,
    ⟨(K x y).1, (K x y).2.1, (K x y).2.2.1, (K x y).2.2.2, ?_, ?_, ?_, ?_⟩⟩
  · exact (G a a).2.2.2.mpr (Nat.le_refl _)
  · intro h1 h2
    exact (G a b).1.mpr (Nat.le_antisymm ((G a b).2.2.2.mp h1) ((G b a).2.2.2.mp h2))
  · intro h1 h2
    exact (G a c).2.2.2.mpr (Nat.le_trans ((G a b).2.2.2.mp h1) ((G b c).2.2.2.mp h2))
  · rcases Nat.le_total a.id b.id with h | h
    · exact Or.inl ((G a b).2.2.2.mpr h)
    · exact Or.inr ((G b a).2.2.2.mpr h)
  · exact (K x x).2.2.2.mpr (Nat.le_refl _)
  · intro h1 h2
    exact (K x y).1.mpr (Nat.le_antisymm ((K x y).2.2.2.mp h1) ((K y x).2.2.2.mp h2))
  · intro h1 h2
    exact (K x z).2.2.2.mpr (Nat.le_trans ((K x y).2.2.2.mp h1) ((K y z).2.2.2.mp h2))
  · rcases Nat.le_total x.id y.id with h | h
    · exact Or.inl ((K x y).2.2.2.mpr h)
    · exact Or.inr ((K y x).2.2.2.mpr h)

/-- C4: each of CreateScenePipeline, CreateShadowPipeline and
CreateShadingPipeline returns the handle `h` exactly when the compiler's
result for its descriptor is present and holds `h`, and throws "Invalid
pipeline" exactly when that result is empty. -/
theorem C4_create_returns_compiled_handle_or_throws
    (compile : GFX.GraphicsPipelineInfo → Option GraphicsPipeline) (shader : Nat)
    (h : GraphicsPipeline) :
    ((CreateScenePipeline compile shader = .ok h ↔ compile (scenePipelineInfo shader) = some h) ∧
      (CreateScenePipeline compile shader = .error "Invalid pipeline" ↔
        compile (scenePipelineInfo shader) = none)) ∧
    ((CreateShadowPipeline compile shader = .ok h ↔
        compile (shadowPipelineInfo shader) = some h) ∧
      (CreateShadowPipeline compile shader = .error "Invalid pipeline" ↔
        compile (shadowPipelineInfo shader) = none)) ∧
    ((CreateShadingPipeline compile shader = .ok h ↔
        compile (shadingPipelineInfo shader) = some h) ∧
      (CreateShadingPipeline compile shader = .error "Invalid pipeline" ↔
        compile (shadingPipelineInfo shader) = none)) := by
  refine ⟨⟨?_, ?_⟩, ⟨?_, ?_⟩, ⟨?_, ?_⟩⟩
  · simp only [CreateScenePipeline]
    cases compile (scenePipelineInfo shader) <;> simp
  · simp only [CreateScenePipeline]
    cases compile (scenePipelineInfo shader) <;> simp [invalidPipeline]
  · simp only [CreateShadowPipeline]
    cases compile (shadowPipelineInfo shader) <;> simp
  · simp only [CreateShadowPipeline]
    cases compile (shadowPipelineInfo shader) <;> simp [invalidPipeline]
  · simp only [CreateShadingPipeline]
    cases compile (shadingPipelineInfo shader) <;> simp
  · simp only [CreateShadingPipeline]
    cases compile (shadingPipelineInfo shader) <;> simp [invalidPipeline]

/-- C5: the vertex-input description of GetSceneInputBindingDescs has the
pairwise distinct (location, binding) pairs (0,0), (1,0), (2,0); every
attribute ends within the stride `sizeof(Vertex)` = 32, which is the stride
every BindVertexBuffer of the frame passes; and the attributes occupy the
byte ranges [0,12), [12,24), [24,32), which do not overlap. -/
theorem C5_vertex_input_fits_stride {F : Type} (inverse : Mat4 F → Mat4 F) (sc : Scene)
    (f : FrameInput F) :
    GetSceneInputBindingDescs.map (fun d => (d.location, d.binding)) = [(0, 0), (1, 0), (2, 0)] ∧
    (GetSceneInputBindingDescs.map (fun d => (d.location, d.binding))).Nodup ∧
    GetSceneInputBindingDescs.map (fun d => d.format.byteSize) = [12, 12, 8] ∧
    sizeofVertex = 32 ∧
    (frame inverse sc f).filterMap GfxCall.vertexStride = [sizeofVertex, sizeofVertex] ∧
    (∀ d ∈ GetSceneInputBindingDescs, d.offset + d.format.byteSize ≤ sizeofVertex) ∧
    GetSceneInputBindingDescs.map VertexInputBindingDescription.range =
      [(0, 12), (12, 24), (24, 32)] ∧
    GetSceneInputBindingDescs.Pairwise
      (fun d e => d.range.2 ≤ e.range.1 ∨ e.range.2 ≤ d.range.1) := by
  refine ⟨by decide, by decide, by decide, by decide, ?_, by decide, by decide, by decide⟩
  simp [frame, GfxCall.vertexStride]


/-- C6: the geometry-pass and RSM-pass DrawIndexed calls are
`DrawIndexed(36, 6, 0, 0, 0)`, 36 and 6 being the lengths of gCubeIndices and
objectUniforms; every entry of gCubeIndices is below 24, the length of
gCubeVertices; and the index range, the instances and every referenced vertex
lie within the index, object and vertex buffers. -/
theorem C6_draw_indexed_in_bounds {F : Type} (inverse : Mat4 F → Mat4 F) (sc : Scene)
    (f : FrameInput F) (g sh : List F) :
    indexedDraws (trace (loopEntry g sh) (frame inverse sc f)) =
        [(some sc.scenePipeline, .DrawIndexed 36 6 0 0 0),
         (some sc.rsmPipeline, .DrawIndexed 36 6 0 0 0)] ∧
      gCubeIndices.length = 36 ∧ objectUniforms.length = 6 ∧ gCubeVertices.length = 24 ∧
      (∀ i ∈ gCubeIndices, i < 24) ∧
      (0 + 36) * sizeofIndex ≤ BufferName.indexBuffer.Size ∧
      6 * sizeofObjectUniforms ≤ BufferName.objectBuffer.Size ∧
      (∀ i ∈ gCubeIndices, (0 + i + 1) * sizeofVertex ≤ BufferName.vertexBuffer.Size) := by
  refine ⟨?_, by decide, by decide, by decide, by decide, by decide, by decide, by decide⟩
  have h36 : gCubeIndices.length = 36 := by decide
  have h6 : objectUniforms.length = 6 := by decide
  simp [indexedDraws, frame, trace, exec, loopEntry, GfxCall.isDrawIndexed, h36, h6]

/-- The entry built for any object positions it: scale first, then translate. -/
theorem makeObjectUniforms_positions (o : Vec3 ℚ × Vec3 ℚ × Vec3 ℚ) :
    PositionsObject o (makeObjectUniforms o) := by
  refine ⟨fun v => ?_, rfl⟩
  simp only [makeObjectUniforms, translate, scale, mat4Identity, Mat4.mulVec, Vec4.smul,
    Vec3.point, Vec4.mk.injEq]
  refine ⟨?_, ?_, ?_, ?_⟩ <;> ring

/-- C7: objectUniforms holds one entry per fixture object, in fixture order,
and entry i's model matrix maps every point (v,1) to (t_i + s_i * v, 1) while
its colour is (c_i, 0). -/
theorem C7_object_uniforms_position_objects :
    objects.length = 6 ∧ objectUniforms.length = 6 ∧
      List.Forall₂ PositionsObject objects objectUniforms := by
  refine ⟨by decide, by decide, ?_⟩
  rw [objectUniforms, List.forall₂_map_right_iff, List.forall₂_same]
  exact fun o _ => makeObjectUniforms_positions o

theorem Mat4.toWords_length {F : Type} (m : Mat4 F) : m.toWords.length = 16 := rfl

theorem writeWords_length {F : Type} (buf : List F) (byteOffset : Nat) (data : List F) :
    (writeWords buf byteOffset data).length = buf.length := by
  unfold writeWords
  split
  · simp only [List.length_append, List.length_take, List.length_drop]
    omega
  · rfl

/-- A matrix written at an offset where it fits is the matrix read back there. -/
theorem readMat4_writeWords_same {F : Type} (buf data : List F) (byteOffset : Nat)
    (hd : data.length = 16) (h : byteOffset / 4 + 16 ≤ buf.length) :
    readMat4 (writeWords buf byteOffset data) byteOffset = data := by
  have hfit : byteOffset / 4 + data.length ≤ buf.length := by omega
  have htake : (buf.take (byteOffset / 4)).length = byteOffset / 4 := by
    rw [List.length_take]
    omega
  unfold readMat4 writeWords
  rw [if_pos hfit, List.append_assoc, List.drop_left' htake, ← hd, List.take_left' rfl]

/-- A write at word 16 or above leaves the matrix at offset 0 as it was. -/
theorem readMat4_writeWords_above {F : Type} (buf data : List F) (byteOffset : Nat)
    (h16 : byteOffset / 4 = 16) :
    readMat4 (writeWords buf byteOffset data) 0 = readMat4 buf 0 := by
  unfold readMat4 writeWords
  split
  · rename_i hfit
    have htake : (buf.take (byteOffset / 4)).length = 16 := by
      rw [List.length_take]
      omega
    rw [h16] at htake ⊢
    simp only [Nat.zero_div, List.drop_zero, List.append_assoc]
    rw [List.take_left' htake]
  · rfl

theorem exec_globalUniforms_length {F : Type} (s : RecorderState F) (c : GfxCall F) :
    (exec s c).globalUniforms.length = s.globalUniforms.length := by
  cases c with
  | SubData buffer data byteOffset => cases buffer <;> simp [exec, writeWords_length]
  | _ => rfl

theorem run_globalUniforms_length {F : Type} (s : RecorderState F) (cs : List (GfxCall F)) :
    (run s cs).globalUniforms.length = s.globalUniforms.length := by
  induction cs generalizing s with
  | nil => rfl
  | cons c cs ih => rw [run, ih, exec_globalUniforms_length]

/-- C9: in every frame (after any number of earlier frames), the geometry-pass
DrawIndexed finds this frame's viewProj at byte offset 0 of the global
uniform buffer, the RSM-pass DrawIndexed finds this frame's sunViewProj
there, and the shading-pass Draw finds viewProj at offset 0 and
inverse(viewProj) at offset 64. -/
theorem C9_draws_read_this_frames_matrices {F : Type} (inverse : Mat4 F → Mat4 F) (sc : Scene)
    (earlier : List (FrameInput F)) (f : FrameInput F) (g sh : List F)
    (hg : 4 * g.length = BufferName.globalUniformsBuffer.Size) :
    (observeDraws (trace (run (loopEntry g sh) (frames inverse sc earlier))
        (frame inverse sc f))).map (fun o => (o.pipeline, o.call, o.matrixAt0)) =
      [(some sc.scenePipeline, .DrawIndexed 36 6 0 0 0, f.viewProj.toWords),
       (some sc.rsmPipeline, .DrawIndexed 36 6 0 0 0, f.shadingUniforms.sunViewProj.toWords),
       (some sc.shadingPipeline, .Draw 3 1 0 0, f.viewProj.toWords)] ∧
    ((observeDraws (trace (run (loopEntry g sh) (frames inverse sc earlier))
        (frame inverse sc f))).map (fun o => (o.call, o.matrixAt64))).getLast? =
      some (.Draw 3 1 0 0, (inverse f.viewProj).toWords) := by
  have hsize : BufferName.globalUniformsBuffer.Size = 128 := by decide
  have hlen : (run (loopEntry g sh) (frames inverse sc earlier)).globalUniforms.length = 32 := by
    rw [run_globalUniforms_length]
    simp only [loopEntry]
    omega
  generalize run (loopEntry g sh) (frames inverse sc earlier) = s at hlen ⊢
  obtain ⟨r, p, gu, su⟩ := s
  simp only at hlen
  have h36 : gCubeIndices.length = 36 := by decide
  have h6 : objectUniforms.length = 6 := by decide
  have hm : sizeofMat4 = 64 := by decide
  have e1 : readMat4 (writeWords gu 0 f.viewProj.toWords) 0 = f.viewProj.toWords :=
    readMat4_writeWords_same _ _ _ rfl (by omega)
  have e2 : readMat4 (writeWords (writeWords gu 0 f.viewProj.toWords) 0
      f.shadingUniforms.sunViewProj.toWords) 0 = f.shadingUniforms.sunViewProj.toWords :=
    readMat4_writeWords_same _ _ _ rfl (by rw [writeWords_length]; omega)
  have e3 : readMat4 (writeWords (writeWords (writeWords gu 0 f.viewProj.toWords) 0
      f.shadingUniforms.sunViewProj.toWords) 0 f.viewProj.toWords) 0 = f.viewProj.toWords :=
    readMat4_writeWords_same _ _ _ rfl (by rw [writeWords_length, writeWords_length]; omega)
  have e4 : readMat4 (writeWords (writeWords (writeWords (writeWords gu 0 f.viewProj.toWords) 0
      f.shadingUniforms.sunViewProj.toWords) 0 f.viewProj.toWords) 64
      (inverse f.viewProj).toWords) 64 = (inverse f.viewProj).toWords :=
    readMat4_writeWords_same _ _ _ rfl
      (by rw [writeWords_length, writeWords_length, writeWords_length]; omega)
  have e5 : readMat4 (writeWords (writeWords (writeWords (writeWords gu 0 f.viewProj.toWords) 0
      f.shadingUniforms.sunViewProj.toWords) 0 f.viewProj.toWords) 64
      (inverse f.viewProj).toWords) 0 = f.viewProj.toWords := by
    rw [readMat4_writeWords_above _ _ _ rfl, e3]
  simp [frame, trace, exec, observeDraws, GfxCall.isDraw, h36, h6, hm, e1, e2, e4, e5]

/-- Witness of C9: the second frame of a two-frame run over sample data. -/
theorem C9_draws_read_this_frames_matrices_witness :
    4 * (List.replicate 32 0).length = BufferName.globalUniformsBuffer.Size ∧
    ((observeDraws (trace (run (loopEntry (List.replicate 32 0) (List.replicate 32 0))
          (frames sampleInverse sampleScene [sampleFrame]))
        (frame sampleInverse sampleScene sampleFrame))).map
          (fun o => (o.pipeline, o.call, o.matrixAt0)) =
      [(some sampleScene.scenePipeline, .DrawIndexed 36 6 0 0 0, sampleFrame.viewProj.toWords),
       (some sampleScene.rsmPipeline, .DrawIndexed 36 6 0 0 0,
          sampleFrame.shadingUniforms.sunViewProj.toWords),
       (some sampleScene.shadingPipeline, .Draw 3 1 0 0, sampleFrame.viewProj.toWords)] ∧
    ((observeDraws (trace (run (loopEntry (List.replicate 32 0) (List.replicate 32 0))
          (frames sampleInverse sampleScene [sampleFrame]))
        (frame sampleInverse sampleScene sampleFrame))).map
          (fun o => (o.call, o.matrixAt64))).getLast? =
      some (.Draw 3 1 0 0, (sampleInverse sampleFrame.viewProj).toWords)) :=
  ⟨by decide, C9_draws_read_this_frames_matrices sampleInverse sampleScene [sampleFrame]
    sampleFrame (List.replicate 32 0) (List.replicate 32 0) (by decide)⟩

/-- Compiling any descriptor keeps what the cache holds for another one. -/
theorem lookup_CompileGraphicsPipeline (valid : GraphicsPipelineInfo → Bool)
    (cache : PipelineCache) (other info : GraphicsPipelineInfo) (h : GraphicsPipeline)
    (hl : cache.entries.lookup info = some h) :
    (CompileGraphicsPipeline valid cache other).2.entries.lookup info = some h := by
  unfold CompileGraphicsPipeline
  split
  · split
    · exact hl
    · rename_i hnone
      have hne : info ≠ other := by
        intro heq
        rw [heq, hnone] at hl
        exact Option.noConfusion hl
      simp only [List.lookup_cons]
      rw [beq_false_of_ne hne]
      exact hl
  · exact hl

theorem lookup_compileAll (valid : GraphicsPipelineInfo → Bool) (cache : PipelineCache)
    (others : List GraphicsPipelineInfo) (info : GraphicsPipelineInfo) (h : GraphicsPipeline)
    (hl : cache.entries.lookup info = some h) :
    (compileAll valid cache others).entries.lookup info = some h := by
  induction others generalizing cache with
  | nil => exact hl
  | cons o os ih => exact ih _ (lookup_CompileGraphicsPipeline valid cache o info h hl)

/-- A successful compilation leaves its handle in the cache under its
descriptor. -/
theorem lookup_after_compile (valid : GraphicsPipelineInfo → Bool) (cache : PipelineCache)
    (info : GraphicsPipelineInfo) (h : GraphicsPipeline)
    (hc : (CompileGraphicsPipeline valid cache info).1 = some h) :
    (CompileGraphicsPipeline valid cache info).2.entries.lookup info = some h := by
  unfold CompileGraphicsPipeline at hc ⊢
  cases hv : valid info with
  | false => simp [hv] at hc
  | true =>
    cases hlk : cache.entries.lookup info with
    | some p =>
      simp only [hv, hlk, if_true, Option.some.injEq] at hc ⊢
      rw [← hc]
    | none =>
      simp only [hv, hlk, if_true, Option.some.injEq] at hc ⊢
      simp [List.lookup_cons, hc]

/-- A valid descriptor found in the cache compiles to the cached handle and
leaves the cache as it is. -/
theorem compile_of_lookup (valid : GraphicsPipelineInfo → Bool) (cache : PipelineCache)
    (info : GraphicsPipelineInfo) (h : GraphicsPipeline) (hv : valid info = true)
    (hl : cache.entries.lookup info = some h) :
    CompileGraphicsPipeline valid cache info = (some h, cache) := by
  unfold CompileGraphicsPipeline
  rw [if_pos hv, hl]

/-- C8: compiling a descriptor and, after any further compilations, a
structurally equal descriptor either fails both times or succeeds both times
with handles that compare equal, and the second compilation leaves the cache
as it found it (no new compiled object). -/
theorem C8_equal_descriptors_equal_handles (valid : GraphicsPipelineInfo → Bool)
    (cache : PipelineCache) (between : List GraphicsPipelineInfo)
    (P1 P2 : GraphicsPipelineInfo) (hP : P1 = P2) :
    ((CompileGraphicsPipeline valid cache P1).1 = none ∧
      (CompileGraphicsPipeline valid
        (compileAll valid (CompileGraphicsPipeline valid cache P1).2 between) P2).1 = none) ∨
    (∃ h1 h2 : GraphicsPipeline,
      (CompileGraphicsPipeline valid cache P1).1 = some h1 ∧
      (CompileGraphicsPipeline valid
        (compileAll valid (CompileGraphicsPipeline valid cache P1).2 between) P2).1 = some h2 ∧
      h1.eq h2 = true ∧
      (CompileGraphicsPipeline valid
        (compileAll valid (CompileGraphicsPipeline valid cache P1).2 between) P2).2 =
        compileAll valid (CompileGraphicsPipeline valid cache P1).2 between) := by
  subst hP
  cases hv : valid P1 with
  | false =>
    left
    simp [CompileGraphicsPipeline, hv]
  | true =>
    right
    have h1 : ∃ h, (CompileGraphicsPipeline valid cache P1).1 = some h := by
      unfold CompileGraphicsPipeline
      rw [if_pos hv]
      split
      · exact ⟨_, rfl⟩
      · exact ⟨_, rfl⟩
    obtain ⟨h, hh⟩ := h1
    have hl := lookup_compileAll valid _ between P1 h (lookup_after_compile valid cache P1 h hh)
    have hc := compile_of_lookup valid _ P1 h hv hl
    refine ⟨h, h, hh, ?_, (defaulted_single_member h.id h.id).1.mpr rfl, ?_⟩
    · rw [hc]
    · rw [hc]

/-- Witness of C8: a sample descriptor compiled twice with another
compilation between. -/
theorem C8_equal_descriptors_equal_handles_witness :
    ∃ h1 h2 : GraphicsPipeline,
      (CompileGraphicsPipeline sampleValid sampleCache sampleInfo).1 = some h1 ∧
      (CompileGraphicsPipeline sampleValid
        (compileAll sampleValid (CompileGraphicsPipeline sampleValid sampleCache sampleInfo).2
          [{ vertexShader := some 3, fragmentShader := some 4 }]) sampleInfo).1 = some h2 ∧
      h1.eq h2 = true ∧
      (CompileGraphicsPipeline sampleValid
        (compileAll sampleValid (CompileGraphicsPipeline sampleValid sampleCache sampleInfo).2
          [{ vertexShader := some 3, fragmentShader := some 4 }]) sampleInfo).2 =
        compileAll sampleValid (CompileGraphicsPipeline sampleValid sampleCache sampleInfo).2
          [{ vertexShader := some 3, fragmentShader := some 4 }] :=
  (C8_equal_descriptors_equal_handles sampleValid sampleCache
    [{ vertexShader := some 3, fragmentShader := some 4 }] sampleInfo sampleInfo rfl).resolve_left
    (by decide)

/-- C10: every SubData of the frame writes within its buffer (the matrices at
offsets 0, 0, 0 and 64 into the 128-byte global uniform buffer, the
ShadingUniforms struct at offset 0 into its 128-byte buffer), and every
BindUniformBuffer / BindStorageBuffer binds offset 0 and the full Size() of
its buffer. -/
theorem C10_buffer_ranges_in_bounds {F : Type} (inverse : Mat4 F → Mat4 F) (sc : Scene)
    (f : FrameInput F) :
    (frame inverse sc f).filterMap GfxCall.subDataRange =
        [(.globalUniformsBuffer, 0, 64), (.shadingUniformsBuffer, 0, 128),
         (.globalUniformsBuffer, 0, 64), (.globalUniformsBuffer, 0, 64),
         (.globalUniformsBuffer, 64, 64)] ∧
      BufferName.globalUniformsBuffer.Size = 128 ∧
      BufferName.shadingUniformsBuffer.Size = 128 ∧
      sizeofMat4 = 64 ∧
      (∀ c ∈ frame inverse sc f, ∀ r, c.subDataRange = some r → r.2.1 + r.2.2 ≤ r.1.Size) ∧
      (∀ c ∈ frame inverse sc f, ∀ r, c.bindRange = some r →
        r.2.1 = 0 ∧ r.2.2 = r.1.Size ∧ r.2.1 + r.2.2 ≤ r.1.Size) := by
  have hg : BufferName.globalUniformsBuffer.Size = 128 := by decide
  have hs : BufferName.shadingUniformsBuffer.Size = 128 := by decide
  have hm : sizeofMat4 = 64 := by decide
  refine ⟨?_, hg, hs, hm, ?_, ?_⟩
  · simp [frame, GfxCall.subDataRange, Mat4.toWords, Vec4.toWords, ShadingUniforms.toWords, hm]
  · simp [frame, GfxCall.subDataRange, Mat4.toWords, Vec4.toWords, ShadingUniforms.toWords,
      hg, hs, hm]
  · simp [frame, GfxCall.bindRange]

/-- The square root of 16/25. -/
theorem sqrt_sixteen_twentyfifths : Real.sqrt (16 / 25) = 4 / 5 := by
  rw [show (16 / 25 : ℝ) = (4 / 5) ^ 2 by norm_num]
  exact Real.sqrt_sq (by norm_num)

/-- C11: SetForwardDir does not invert GetForwardDir on the direction
(-3/5, 0, -4/5), which has unit length and |y| < 1: the assert passes, and
GetForwardDir then returns (-3/5, 0, 4/5), the z component negated. -/
theorem C11_setForwardDir_negates_z_when_x_and_z_negative (v : View) :
    (⟨-3 / 5, 0, -4 / 5⟩ : Vec3 ℝ).length = 1 ∧ |(⟨-3 / 5, 0, -4 / 5⟩ : Vec3 ℝ).y| < 1 ∧
    ∃ w : View, v.SetForwardDir ⟨-3 / 5, 0, -4 / 5⟩ = some w ∧
      w.GetForwardDir = ⟨-3 / 5, 0, 4 / 5⟩ ∧ w.GetForwardDir ≠ ⟨-3 / 5, 0, -4 / 5⟩ := by
  have hlen : (⟨-3 / 5, 0, -4 / 5⟩ : Vec3 ℝ).length = 1 := by
    simp only [Vec3.length, Vec3.dot]
    rw [show (-3 / 5 * (-3 / 5) + 0 * 0 + -4 / 5 * (-4 / 5) : ℝ) = 1 by norm_num]
    exact Real.sqrt_one
  have hsin : Real.sin (Real.arccos (-3 / 5)) = 4 / 5 := by
    rw [Real.sin_arccos]
    rw [show (1 - (-3 / 5 : ℝ) ^ 2) = 16 / 25 by norm_num]
    exact sqrt_sixteen_twentyfifths
  have hcos : Real.cos (Real.arccos (-3 / 5)) = -3 / 5 :=
    Real.cos_arccos (by norm_num) (by norm_num)
  have hfwd : (⟨v.position, Real.arcsin 0, Real.arccos (-3 / 5)⟩ : View).GetForwardDir =
      ⟨-3 / 5, 0, 4 / 5⟩ := by
    simp only [View.GetForwardDir, Real.arcsin_zero, Real.cos_zero, Real.sin_zero, hsin, hcos,
      one_mul]
  refine ⟨hlen, by norm_num, ⟨v.position, Real.arcsin 0, Real.arccos (-3 / 5)⟩, ?_, hfwd, ?_⟩
  · simp only [View.SetForwardDir, hlen]
    norm_num
  · rw [hfwd]
    intro h
    have := congrArg Vec3.z h
    norm_num at this

/-- For a unit direction off the vertical, `SetForwardDir` followed by
`GetForwardDir` gives the direction back unless both `x` and `z` are negative,
where the `z` component comes back with the opposite sign. -/
theorem setForwardDir_getForwardDir (v : View) (dir : Vec3 ℝ) (hlen : dir.length = 1)
    (hy : |dir.y| < 1) :
    ∃ w : View, v.SetForwardDir dir = some w ∧
      w.GetForwardDir = (if dir.x < 0 ∧ dir.z < 0 then ⟨dir.x, dir.y, -dir.z⟩ else dir) := by
  obtain ⟨x, y, z⟩ := dir
  simp only at hy
  have hy' := abs_lt.mp hy
  have hunit : x * x + y * y + z * z = 1 := by
    have h := hlen
    simp only [Vec3.length, Vec3.dot] at h
    have h0 : (0 : ℝ) ≤ x * x + y * y + z * z := by
      nlinarith [mul_self_nonneg x, mul_self_nonneg y, mul_self_nonneg z]
    have h2 := Real.sq_sqrt h0
    rw [h] at h2
    linarith
  have hc2 : 0 < 1 - y ^ 2 := by nlinarith
  have hcos : Real.cos (Real.arcsin y) = Real.sqrt (1 - y ^ 2) := Real.cos_arcsin y
  have hsin : Real.sin (Real.arcsin y) = y := Real.sin_arcsin (le_of_lt hy'.1) (le_of_lt hy'.2)
  set c := Real.sqrt (1 - y ^ 2) with hc
  have hcpos : 0 < c := Real.sqrt_pos.mpr hc2
  have hcsq : c ^ 2 = 1 - y ^ 2 := Real.sq_sqrt (le_of_lt hc2)
  have hcne : c ≠ 0 := ne_of_gt hcpos
  have ht2 : (x / c) ^ 2 ≤ 1 := by
    rw [div_pow, div_le_one (by positivity)]
    nlinarith [mul_self_nonneg z]
  have ht := abs_le.mp ((sq_le_one_iff_abs_le_one (x / c)).mp ht2)
  have hcosy : Real.cos (Real.arccos (x / c)) = x / c := Real.cos_arccos ht.1 ht.2
  have hsiny : Real.sin (Real.arccos (x / c)) = |z| / c := by
    rw [Real.sin_arccos]
    have : 1 - (x / c) ^ 2 = (|z| / c) ^ 2 := by
      rw [div_pow, div_pow, sq_abs]
      field_simp
      nlinarith
    rw [this]
    exact Real.sqrt_sq (by positivity)
  have hassert : |1 - (⟨x, y, z⟩ : Vec3 ℝ).length| < 0.0001 := by
    rw [hlen]
    norm_num
  have hmul : ∀ a : ℝ, c * (a / c) = a := fun a => mul_div_cancel₀ a hcne
  simp only [View.SetForwardDir, hassert, if_true]
  refine ⟨_, rfl, ?_⟩
  simp only [View.GetForwardDir, hcos, hsin]
  by_cases hz : z < 0
  · by_cases hx : x < 0
    · have hnx : ¬ (x ≥ 0) := not_le.mpr hx
      simp only [hnx, hz, hx, false_and, and_self, if_false, if_true, hcosy, hsiny,
        abs_of_neg hz, hmul]
    · have hx' : x ≥ 0 := not_lt.mp hx
      simp only [hx', hz, hx, and_self, false_and, if_true, if_false, mul_neg, mul_one,
        Real.cos_neg, Real.sin_neg, hcosy, hsiny, abs_of_neg hz, hmul, neg_neg]
  · have hz' : 0 ≤ z := not_lt.mp hz
    simp only [hz, and_false, if_false, hcosy, hsiny, abs_of_nonneg hz', hmul]

/-- C12: gCubeIndices makes 12 triangles over gCubeVertices, and each has its
three vertices on one face plane (same normal n, position . n = 0.5) with
cross(p1 - p0, p2 - p0) . n > 0, that is counter-clockwise seen from outside;
the scene and shadow pipelines take frontFace = COUNTERCLOCKWISE and
cullMode = BACK. -/
theorem C12_cube_triangles_wound_counter_clockwise (shader : Nat) :
    (triangles gCubeIndices).length = 12 ∧
      (∀ t ∈ triangles gCubeIndices, OutwardCounterClockwise t) ∧
      (scenePipelineInfo shader).rasterizationState.frontFace = .COUNTERCLOCKWISE ∧
      (scenePipelineInfo shader).rasterizationState.cullMode = .BACK ∧
      (shadowPipelineInfo shader).rasterizationState.frontFace = .COUNTERCLOCKWISE ∧
      (shadowPipelineInfo shader).rasterizationState.cullMode = .BACK := by
  refine ⟨by decide, ?_, rfl, rfl, rfl, rfl⟩
  simp only [triangles, gCubeIndices, List.forall_mem_cons]
  simp [OutwardCounterClockwise, gCubeVertices, Vec3.dot, Vec3.cross, Vec3.sub]
  norm_num

theorem clamp_mem (x lo hi : ℝ) (h : lo ≤ hi) : lo ≤ clamp x lo hi ∧ clamp x lo hi ≤ hi := by
  unfold clamp
  exact ⟨le_min (le_max_right _ _) h, min_le_right _ _⟩

theorem pitch_bounds_lt : -halfPi + 1e-4 ≤ halfPi - 1e-4 := by
  unfold halfPi
  have := Real.pi_gt_three
  norm_num
  linarith

theorem updateCamera_pitch (camera : View) (e : FrameEvents) :
    -halfPi + 1e-4 ≤ (updateCamera camera e).pitch ∧
      (updateCamera camera e).pitch ≤ halfPi - 1e-4 :=
  clamp_mem _ _ _ pitch_bounds_lt

theorem foldl_updateCamera_pitch (es : List FrameEvents) (camera : View)
    (h : -halfPi + 1e-4 ≤ camera.pitch ∧ camera.pitch ≤ halfPi - 1e-4) :
    -halfPi + 1e-4 ≤ (es.foldl updateCamera camera).pitch ∧
      (es.foldl updateCamera camera).pitch ≤ halfPi - 1e-4 := by
  induction es generalizing camera with
  | nil => exact h
  | cons e es ih => exact ih _ (updateCamera_pitch camera e)

theorem cross_forward_up (camera : View) :
    camera.GetForwardDir.cross ⟨0, 1, 0⟩ =
      ⟨-(Real.cos camera.pitch * Real.sin camera.yaw), 0,
        Real.cos camera.pitch * Real.cos camera.yaw⟩ := by
  simp [View.GetForwardDir, Vec3.cross]

/-- C13: after any number of frames from the initial camera (pitch 0), for any
cursor offsets, the pitch lies in [-pi/2 + 1e-4, pi/2 - 1e-4], hence strictly
inside (-pi/2, pi/2); cos(pitch) is positive; cross(GetForwardDir(), (0,1,0))
has length cos(pitch) and is not the zero vector, so the square root that
normalize divides by is not zero. -/
theorem C13_pitch_stays_clamped_and_right_is_defined (es : List FrameEvents) :
    (-halfPi + 1e-4 ≤ (cameraAfter es).pitch ∧ (cameraAfter es).pitch ≤ halfPi - 1e-4) ∧
    (-(Real.pi / 2) < (cameraAfter es).pitch ∧ (cameraAfter es).pitch < Real.pi / 2) ∧
    0 < Real.cos (cameraAfter es).pitch ∧
    ((cameraAfter es).GetForwardDir.cross ⟨0, 1, 0⟩).length = Real.cos (cameraAfter es).pitch ∧
    (cameraAfter es).GetForwardDir.cross ⟨0, 1, 0⟩ ≠ ⟨0, 0, 0⟩ ∧
    Real.sqrt (((cameraAfter es).GetForwardDir.cross ⟨0, 1, 0⟩).dot
      ((cameraAfter es).GetForwardDir.cross ⟨0, 1, 0⟩)) ≠ 0 := by
  have h0 : -halfPi + 1e-4 ≤ initialCamera.pitch ∧ initialCamera.pitch ≤ halfPi - 1e-4 := by
    have := Real.pi_gt_three
    simp only [initialCamera, halfPi]
    constructor <;> norm_num <;> linarith
  have hb := foldl_updateCamera_pitch es initialCamera h0
  change -halfPi + 1e-4 ≤ (cameraAfter es).pitch ∧ (cameraAfter es).pitch ≤ halfPi - 1e-4 at hb
  generalize cameraAfter es = cam at hb ⊢
  have hlt : -(Real.pi / 2) < cam.pitch ∧ cam.pitch < Real.pi / 2 := by
    unfold halfPi at hb
    constructor
    · have := hb.1
      norm_num at this
      linarith
    · have := hb.2
      norm_num at this
      linarith
  have hcos : 0 < Real.cos cam.pitch := Real.cos_pos_of_mem_Ioo ⟨hlt.1, hlt.2⟩
  have hlen : (cam.GetForwardDir.cross ⟨0, 1, 0⟩).length = Real.cos cam.pitch := by
    rw [cross_forward_up, Vec3.length, Vec3.dot]
    have : -(Real.cos cam.pitch * Real.sin cam.yaw) * -(Real.cos cam.pitch * Real.sin cam.yaw) +
        0 * 0 + Real.cos cam.pitch * Real.cos cam.yaw * (Real.cos cam.pitch * Real.cos cam.yaw) =
        Real.cos cam.pitch ^ 2 := by
      have := Real.sin_sq_add_cos_sq cam.yaw
      nlinarith
    rw [this]
    exact Real.sqrt_sq (le_of_lt hcos)
  refine ⟨hb, hlt, hcos, hlen, ?_, ?_⟩
  · intro h
    rw [h] at hlen
    simp [Vec3.length, Vec3.dot] at hlen
    linarith
  · have := hlen
    rw [Vec3.length] at this
    rw [this]
    exact ne_of_gt hcos

theorem bitLengthAux_le_iff (fuel n k : Nat) (h : n ≤ fuel) :
    bitLengthAux fuel n ≤ k ↔ n < 2 ^ k := by
  induction fuel generalizing n k with
  | zero =>
    have hn : n = 0 := Nat.le_zero.mp h
    subst hn
    simp [bitLengthAux]
  | succ fuel ih =>
    unfold bitLengthAux
    by_cases hn : n = 0
    · subst hn
      simp
    · rw [if_neg hn]
      cases k with
      | zero =>
        simp only [Nat.pow_zero, Nat.lt_one_iff]
        constructor
        · intro h0
          omega
        · intro h0
          exact absurd h0 hn
      | succ k =>
        rw [Nat.add_le_add_iff_right, ih (n / 2) k (by omega), Nat.pow_succ,
          Nat.div_lt_iff_lt_mul (by decide)]

theorem bitLength_le_iff (n k : Nat) : bitLength n ≤ k ↔ n < 2 ^ k :=
  bitLengthAux_le_iff n n k (Nat.le_refl n)

theorem lt_two_pow_bitLength (n : Nat) : n < 2 ^ bitLength n :=
  (bitLength_le_iff n _).mp (Nat.le_refl _)

theorem bitLength_two_pow (b : Nat) : bitLength (2 ^ b) = b + 1 := by
  apply Nat.le_antisymm
  · exact (bitLength_le_iff _ _).mpr (Nat.pow_lt_pow_right (by decide) (Nat.lt_succ_self b))
  · by_contra hlt
    have h1 : bitLength (2 ^ b) ≤ b := by omega
    have h2 := (bitLength_le_iff _ _).mp h1
    exact Nat.lt_irrefl _ h2

theorem pow2_pos (t : Nat) : 0 < pow2 t := by
  unfold pow2
  exact Int.ofNat_lt.mpr (Nat.two_pow_pos t)

theorem pow2_dvd_pow2 {a b : Nat} (h : a ≤ b) : pow2 a ∣ pow2 b := by
  unfold pow2
  exact Int.ofNat_dvd.mpr (Nat.pow_dvd_pow 2 h)

/-- The rounded value is one of the two neighbouring multiples. -/
theorem roundToGrid_cases (t : Nat) (k : Int) :
    roundToGrid t k = k / pow2 t * pow2 t ∨ roundToGrid t k = (k / pow2 t + 1) * pow2 t := by
  unfold roundToGrid
  simp only
  split
  · exact Or.inl rfl
  · split
    · exact Or.inr rfl
    · split
      · exact Or.inl rfl
      · exact Or.inr rfl

theorem pow2_dvd_roundToGrid (t : Nat) (k : Int) : pow2 t ∣ roundToGrid t k := by
  rcases roundToGrid_cases t k with h | h <;> rw [h] <;> exact Dvd.intro_left _ rfl

theorem spacing_le_of_bitLength_le (p tmin : Nat) {a b : Int}
    (h : bitLength a.natAbs ≤ bitLength b.natAbs) : spacing p tmin a ≤ spacing p tmin b := by
  unfold spacing
  omega

/-- A value below half the spacing rounds to zero. -/
theorem roundToGrid_eq_zero (t : Nat) (k : Int) (h : 2 * (k.natAbs : Int) < pow2 t) :
    roundToGrid t k = 0 := by
  have hP := pow2_pos t
  rcases Int.lt_or_le k 0 with hk | hk
  · have hq : k / pow2 t = -1 := by
      have h1 : (k + pow2 t) / pow2 t = 0 := Int.ediv_eq_zero_of_lt (by omega) (by omega)
      have h2 : (k + pow2 t) / pow2 t = k / pow2 t + 1 := Int.add_ediv_of_dvd_right (dvd_refl _) |>.trans (by
        rw [Int.ediv_self (ne_of_gt hP)])
      omega
    have hr : k % pow2 t = k + pow2 t := by
      have := Int.emod_add_ediv k (pow2 t)
      rw [hq] at this
      linarith
    unfold roundToGrid
    simp only [hq, hr]
    rw [if_neg (by omega), if_pos (by omega)]
    simp
  · have hq : k / pow2 t = 0 := Int.ediv_eq_zero_of_lt hk (by omega)
    have hr : k % pow2 t = k := Int.emod_eq_of_lt hk (by omega)
    unfold roundToGrid
    simp only [hq, hr]
    rw [if_pos (by omega)]
    simp

/-- Rounding never goes beyond the next power of two. -/
theorem natAbs_roundToGrid_le (p tmin : Nat) (k : Int) :
    (roundToGrid (spacing p tmin k) k).natAbs ≤ 2 ^ bitLength k.natAbs := by
  have hlt := lt_two_pow_bitLength k.natAbs
  by_cases ht : spacing p tmin k ≤ bitLength k.natAbs
  · have hP := pow2_pos (spacing p tmin k)
    have hM : pow2 (bitLength k.natAbs) =
        pow2 (bitLength k.natAbs - spacing p tmin k) * pow2 (spacing p tmin k) := by
      unfold pow2
      rw [← Int.natCast_mul, ← Nat.pow_add, Nat.sub_add_cancel ht]
    have hkM : (k.natAbs : Int) < pow2 (bitLength k.natAbs) := by
      unfold pow2
      exact Int.ofNat_lt.mpr hlt
    have hq1 : -pow2 (bitLength k.natAbs - spacing p tmin k) ≤ k / pow2 (spacing p tmin k) := by
      apply Int.le_ediv_of_mul_le hP
      rw [Int.neg_mul, ← hM]
      omega
    have hq2 : k / pow2 (spacing p tmin k) < pow2 (bitLength k.natAbs - spacing p tmin k) := by
      apply Int.ediv_lt_of_lt_mul hP
      rw [← hM]
      omega
    have hlo : -pow2 (bitLength k.natAbs) ≤ k / pow2 (spacing p tmin k) * pow2 (spacing p tmin k) := by
      rw [hM, ← Int.neg_mul]
      exact Int.mul_le_mul_of_nonneg_right hq1 (le_of_lt hP)
    have hhi : (k / pow2 (spacing p tmin k) + 1) * pow2 (spacing p tmin k) ≤
        pow2 (bitLength k.natAbs) := by
      rw [hM]
      exact Int.mul_le_mul_of_nonneg_right (by omega) (le_of_lt hP)
    have hstep : k / pow2 (spacing p tmin k) * pow2 (spacing p tmin k) ≤
        (k / pow2 (spacing p tmin k) + 1) * pow2 (spacing p tmin k) := by
      rw [Int.add_mul]
      omega
    have hpow : pow2 (bitLength k.natAbs) = ((2 ^ bitLength k.natAbs : Nat) : Int) := rfl
    rcases roundToGrid_cases (spacing p tmin k) k with h | h <;> rw [h] <;> omega
  · have hlt2 : bitLength k.natAbs + 1 ≤ spacing p tmin k := by omega
    have h2 : 2 * (k.natAbs : Int) < pow2 (spacing p tmin k) := by
      have : 2 * k.natAbs < 2 ^ spacing p tmin k := by
        calc 2 * k.natAbs < 2 * 2 ^ bitLength k.natAbs := by omega
          _ = 2 ^ (bitLength k.natAbs + 1) := by rw [Nat.pow_succ, Nat.mul_comm]
          _ ≤ 2 ^ spacing p tmin k := Nat.pow_le_pow_right (by decide) hlt2
      unfold pow2
      exact_mod_cast this
    rw [roundToGrid_eq_zero _ _ h2]
    simp

/-- A rounded value is a multiple of the spacing at its own magnitude: it has
at most `p` significant bits above the subnormal spacing. -/
theorem roundToGrid_representable (p tmin : Nat) (hp : 1 ≤ p) (k : Int) :
    roundToGrid (spacing p tmin k) k %
      pow2 (spacing p tmin (roundToGrid (spacing p tmin k) k)) = 0 := by
  by_cases ht : spacing p tmin k ≤ bitLength k.natAbs
  · have hle := natAbs_roundToGrid_le p tmin k
    have hdvd := pow2_dvd_roundToGrid (spacing p tmin k) k
    rcases Nat.lt_or_eq_of_le hle with hlt | heq
    · have hb : bitLength (roundToGrid (spacing p tmin k) k).natAbs ≤ bitLength k.natAbs :=
        (bitLength_le_iff _ _).mpr hlt
      exact Int.emod_eq_zero_of_dvd
        ((pow2_dvd_pow2 (spacing_le_of_bitLength_le p tmin hb)).trans hdvd)
    · have hb : bitLength (roundToGrid (spacing p tmin k) k).natAbs =
          bitLength k.natAbs + 1 := by rw [heq, bitLength_two_pow]
      have hs : spacing p tmin (roundToGrid (spacing p tmin k) k) ≤ bitLength k.natAbs := by
        show max (bitLength (roundToGrid (spacing p tmin k) k).natAbs - p) tmin ≤ _
        rw [hb]
        unfold spacing at ht
        omega
      have hM : pow2 (bitLength k.natAbs) ∣ roundToGrid (spacing p tmin k) k := by
        apply Int.natAbs_dvd_natAbs.mp
        rw [heq]
        unfold pow2
        rw [Int.natAbs_ofNat]
      exact Int.emod_eq_zero_of_dvd ((pow2_dvd_pow2 hs).trans hM)
  · have hlt2 : bitLength k.natAbs + 1 ≤ spacing p tmin k := by omega
    have hlt := lt_two_pow_bitLength k.natAbs
    have h2 : 2 * (k.natAbs : Int) < pow2 (spacing p tmin k) := by
      have : 2 * k.natAbs < 2 ^ spacing p tmin k := by
        calc 2 * k.natAbs < 2 * 2 ^ bitLength k.natAbs := by omega
          _ = 2 ^ (bitLength k.natAbs + 1) := by rw [Nat.pow_succ, Nat.mul_comm]
          _ ≤ 2 ^ spacing p tmin k := Nat.pow_le_pow_right (by decide) hlt2
      unfold pow2
      exact_mod_cast this
    rw [roundToGrid_eq_zero _ _ h2]
    simp

/-- A value that is a multiple of the spacing is left alone by the rounding. -/
theorem roundToGrid_of_dvd (t : Nat) (k : Int) (h : k % pow2 t = 0) : roundToGrid t k = k := by
  have hP := pow2_pos t
  unfold roundToGrid
  simp only [h]
  rw [if_pos (by omega)]
  exact Int.ediv_mul_cancel (Int.dvd_of_emod_eq_zero h)

/-- Conversion to `float` returns whenever the value is below `2 ^ 127`. -/
theorem toFloat_of_lt (k : Int) (b : Nat) (hk : k.natAbs < 2 ^ b) (hb : b ≤ 1201) :
    ∃ f : Float32, toFloat k = some f ∧ f.val.natAbs ≤ 2 ^ b := by
  have hbl : bitLength k.natAbs ≤ b := (bitLength_le_iff _ _).mpr hk
  have hle : (roundToGrid (spacing 24 925 k) k).natAbs ≤ 2 ^ b :=
    Nat.le_trans (natAbs_roundToGrid_le 24 925 k) (Nat.pow_le_pow_right (by decide) hbl)
  have hrange : (roundToGrid (spacing 24 925 k) k).natAbs < 2 ^ 1202 :=
    Nat.lt_of_le_of_lt hle (Nat.pow_lt_pow_right (by decide) (by omega))
  have hf : IsFloat (roundToGrid (spacing 24 925 k) k) :=
    ⟨roundToGrid_representable 24 925 (by decide) k, hrange⟩
  exact ⟨⟨_, hf⟩, by rw [toFloat, dif_pos hf], hle⟩

/-- The `double` result exists whenever the exact value is below `2 ^ 1023`. -/
theorem toDouble_of_lt (k : Int) (b : Nat) (hk : k.natAbs < 2 ^ b) (hb : b ≤ 2097) :
    ∃ d : Float64, toDouble k = some d ∧ d.val.natAbs ≤ 2 ^ b := by
  have hbl : bitLength k.natAbs ≤ b := (bitLength_le_iff _ _).mpr hk
  have hle : (roundToGrid (spacing 53 0 k) k).natAbs ≤ 2 ^ b :=
    Nat.le_trans (natAbs_roundToGrid_le 53 0 k) (Nat.pow_le_pow_right (by decide) hbl)
  have hrange : (roundToGrid (spacing 53 0 k) k).natAbs < 2 ^ 2098 :=
    Nat.lt_of_le_of_lt hle (Nat.pow_lt_pow_right (by decide) (by omega))
  have hd : IsDouble (roundToGrid (spacing 53 0 k) k) :=
    ⟨roundToGrid_representable 53 0 (by decide) k, hrange⟩
  exact ⟨⟨_, hd⟩, by rw [toDouble, dif_pos hd], hle⟩

/-- A value that is a `float` converts to itself. -/
theorem toFloat_of_isFloat (k : Int) (h : IsFloat k) : toFloat k = some ⟨k, h⟩ := by
  have hr : roundToGrid (spacing 24 925 k) k = k := roundToGrid_of_dvd _ _ h.1
  unfold toFloat
  simp only [hr]
  rw [dif_pos h]

theorem toDouble_zero : toDouble 0 = some ⟨0, by decide!⟩ := by decide!

theorem toFloat_zero : toFloat 0 = some Float32.zero := by decide!

/-- A difference of two values of magnitude at most `2 ^ c` can be stored to a
`float` when `c ≤ 1198`. -/
theorem storeDifference_of_le (a b : Int) (c : Nat) (ha : a.natAbs ≤ 2 ^ c)
    (hb : b.natAbs ≤ 2 ^ c) (hc : c ≤ 1198) : ∃ f : Float32, storeDifference a b = some f := by
  have hab : (a - b).natAbs < 2 ^ (c + 2) := by
    have h1 : (2 : Nat) ^ (c + 2) = 4 * 2 ^ c := by rw [Nat.pow_add]; omega
    have h2 := Nat.two_pow_pos c
    omega
  obtain ⟨d, hd, hdle⟩ := toDouble_of_lt (a - b) (c + 2) hab (by omega)
  have hd2 : d.val.natAbs < 2 ^ (c + 3) := by
    have h1 : (2 : Nat) ^ (c + 3) = 2 * 2 ^ (c + 2) := by rw [Nat.pow_succ]; omega
    have := Nat.two_pow_pos (c + 2)
    omega
  obtain ⟨f, hf, _⟩ := toFloat_of_lt d.val (c + 3) hd2 (by omega)
  exact ⟨f, by rw [storeDifference, hd]; exact hf⟩

/-- The value of `doubleTenth` is within half a `double` spacing (`2 ^ -57`) of
1/10, so it is the `double` nearest to 0.1. -/
theorem doubleTenth_toRat : doubleTenth.toRat = 3602879701896397 / 2 ^ 55 ∧
    |doubleTenth.toRat - 1 / 10| ≤ 1 / 2 ^ 57 := by
  decide!

/-- C14, as stated, fails: on the first invocation from the initial globals
with the cursor at the double nearest to 0.1 in both coordinates, the callback
reports offsets (-53687092 * 2^-55, 53687092 * 2^-55), about -1.49e-9 and
1.49e-9, not (0, 0), and leaves previousX = 13421773 * 2^-27, the float
nearest to 0.1, not x. -/
theorem C14_first_call_offsets_not_zero :
    ∃ s' : CursorState,
      CursorPosCallback initialCursorState doubleTenth doubleTenth = some s' ∧
      ¬ (s'.gCursorOffsetX.toRat = 0 ∧ s'.gCursorOffsetY.toRat = 0) ∧
      s'.gCursorOffsetX.toRat = -53687092 / 2 ^ 55 ∧
      s'.gCursorOffsetY.toRat = 53687092 / 2 ^ 55 ∧
      s'.gPreviousCursorX.toRat = 13421773 / 2 ^ 27 ∧
      s'.gPreviousCursorX.toRat ≠ doubleTenth.toRat :=
  ⟨⟨false, ⟨13421773 * pow2 1047, by decide!⟩, ⟨13421773 * pow2 1047, by decide!⟩,
      ⟨-53687092 * pow2 1019, by decide!⟩, ⟨53687092 * pow2 1019, by decide!⟩⟩,
    by decide!, by decide!, by decide!, by decide!, by decide!, by decide!⟩

theorem CursorPosCallback_later (s s' : CursorState) (x y : Float64)
    (hff : s.firstFrame = false) (h : CursorPosCallback s x y = some s') :
    s'.firstFrame = false ∧
      toFloat x.val = some s'.gPreviousCursorX ∧ toFloat y.val = some s'.gPreviousCursorY ∧
      storeDifference x.val s.gPreviousCursorX.val = some s'.gCursorOffsetX ∧
      storeDifference s.gPreviousCursorY.val y.val = some s'.gCursorOffsetY := by
  simp [CursorPosCallback, hff, Option.bind_eq_some] at h
  obtain ⟨ox, hox, oy, hoy, px, hpx, py, hpy, rfl⟩ := h
  exact ⟨rfl, hpx, hpy, hox, hoy⟩

theorem CursorPosCallback_first (s s' : CursorState) (x y : Float64)
    (hff : s.firstFrame = true) (h : CursorPosCallback s x y = some s') :
    s'.firstFrame = false ∧
      toFloat x.val = some s'.gPreviousCursorX ∧ toFloat y.val = some s'.gPreviousCursorY ∧
      storeDifference x.val s'.gPreviousCursorX.val = some s'.gCursorOffsetX ∧
      storeDifference s'.gPreviousCursorY.val y.val = some s'.gCursorOffsetY := by
  simp [CursorPosCallback, hff, Option.bind_eq_some] at h
  obtain ⟨fx, hfx, fy, hfy, ox, hox, oy, hoy, px, hpx, py, hpy, rfl⟩ := h
  rw [hfx] at hpx
  rw [hfy] at hpy
  simp only [Option.some.injEq] at hpx hpy
  subst hpx
  subst hpy
  exact ⟨rfl, hfx, hfy, hox, hoy⟩

theorem storeDifference_self (a : Int) : storeDifference a a = some Float32.zero := by
  rw [storeDifference, Int.sub_self, toDouble_zero]
  exact toFloat_zero

theorem CursorPosCallback_first_of_isFloat (s : CursorState) (x y : Float64)
    (hff : s.firstFrame = true) (hx : IsFloat x.val) (hy : IsFloat y.val) :
    CursorPosCallback s x y =
      some ⟨false, ⟨x.val, hx⟩, ⟨y.val, hy⟩, Float32.zero, Float32.zero⟩ := by
  simp [CursorPosCallback, hff, toFloat_of_isFloat _ hx, toFloat_of_isFloat _ hy,
    storeDifference_self]

theorem CursorPosCallback_isSome (s : CursorState) (x y : Float64)
    (hx : x.val.natAbs < 2 ^ 1198) (hy : y.val.natAbs < 2 ^ 1198)
    (hpx : s.gPreviousCursorX.val.natAbs < 2 ^ 1198)
    (hpy : s.gPreviousCursorY.val.natAbs < 2 ^ 1198) :
    ∃ s', CursorPosCallback s x y = some s' := by
  obtain ⟨fx, hfx, hfxle⟩ := toFloat_of_lt x.val 1198 hx (by decide)
  obtain ⟨fy, hfy, hfyle⟩ := toFloat_of_lt y.val 1198 hy (by decide)
  cases hff : s.firstFrame
  · obtain ⟨ox, hox⟩ := storeDifference_of_le x.val s.gPreviousCursorX.val 1198
      (Nat.le_of_lt hx) (Nat.le_of_lt hpx) (Nat.le_refl _)
    obtain ⟨oy, hoy⟩ := storeDifference_of_le s.gPreviousCursorY.val y.val 1198
      (Nat.le_of_lt hpy) (Nat.le_of_lt hy) (Nat.le_refl _)
    exact ⟨⟨false, fx, fy, ox, oy⟩, by simp [CursorPosCallback, hff, hfx, hfy, hox, hoy]⟩
  · obtain ⟨ox, hox⟩ := storeDifference_of_le x.val fx.val 1198
      (Nat.le_of_lt hx) hfxle (Nat.le_refl _)
    obtain ⟨oy, hoy⟩ := storeDifference_of_le fy.val y.val 1198
      hfyle (Nat.le_of_lt hy) (Nat.le_refl _)
    exact ⟨⟨false, fx, fy, ox, oy⟩, by simp [CursorPosCallback, hff, hfx, hfy, hox, hoy]⟩

/-- The rounded value is within half a spacing of the exact one. -/
theorem roundToGrid_nearest (t : Nat) (k : Int) :
    2 * (roundToGrid t k - k).natAbs ≤ 2 ^ t := by
  have hP := pow2_pos t
  have hk := Int.ediv_add_emod k (pow2 t)
  have hr0 := Int.emod_nonneg k (ne_of_gt hP)
  have hr1 := Int.emod_lt_of_pos k hP
  rw [Int.mul_comm] at hk
  have hpow : pow2 t = ((2 ^ t : Nat) : Int) := rfl
  unfold roundToGrid
  simp only
  split
  · omega
  · split
    · rw [Int.add_mul]
      omega
    · split
      · omega
      · rw [Int.add_mul]
        omega

/-- C14, amended: every invocation leaves firstFrame false, previousX =
(float)x and previousY = (float)y; the first invocation reports offsetX =
(float)(x - (float)x) and offsetY = (float)((float)y - y), a later one
offsetX = (float)(x - previousX) and offsetY = (float)(previousY - y); on the
first invocation with x and y representable as float the result is offsets
(0, 0) and previous = (x, y) whatever the previous values were; and the
callback returns whenever position and previous values are below 2^124 in
magnitude. -/
theorem C14_cursor_callback_narrows_to_float (s : CursorState) (x y : Float64) :
    (∀ s' : CursorState, CursorPosCallback s x y = some s' →
        s'.firstFrame = false ∧
        toFloat x.val = some s'.gPreviousCursorX ∧ toFloat y.val = some s'.gPreviousCursorY ∧
        (s.firstFrame = true →
          storeDifference x.val s'.gPreviousCursorX.val = some s'.gCursorOffsetX ∧
          storeDifference s'.gPreviousCursorY.val y.val = some s'.gCursorOffsetY) ∧
        (s.firstFrame = false →
          storeDifference x.val s.gPreviousCursorX.val = some s'.gCursorOffsetX ∧
          storeDifference s.gPreviousCursorY.val y.val = some s'.gCursorOffsetY)) ∧
    (s.firstFrame = true → ∀ (hx : IsFloat x.val) (hy : IsFloat y.val),
        CursorPosCallback s x y =
          some ⟨false, ⟨x.val, hx⟩, ⟨y.val, hy⟩, Float32.zero, Float32.zero⟩) ∧
    (x.val.natAbs < 2 ^ 1198 → y.val.natAbs < 2 ^ 1198 →
      s.gPreviousCursorX.val.natAbs < 2 ^ 1198 → s.gPreviousCursorY.val.natAbs < 2 ^ 1198 →
      ∃ s' : CursorState, CursorPosCallback s x y = some s') := by
  refine ⟨fun s' h => ?_, fun hff hx hy => CursorPosCallback_first_of_isFloat s x y hff hx hy,
    fun hx hy hpx hpy => CursorPosCallback_isSome s x y hx hy hpx hpy⟩
  cases hff : s.firstFrame
  · obtain ⟨h1, h2, h3, h4, h5⟩ := CursorPosCallback_later s s' x y hff h
    exact ⟨h1, h2, h3, fun hc => Bool.noConfusion hc, fun _ => ⟨h4, h5⟩⟩
  · obtain ⟨h1, h2, h3, h4, h5⟩ := CursorPosCallback_first s s' x y hff h
    exact ⟨h1, h2, h3, fun _ => ⟨h4, h5⟩, fun hc => Bool.noConfusion hc⟩

end Fwog
